import Mathlib

/-!
Verification of the durable job-queue subsystem of `fastsdcpu`.

The embedding models the SQLite-backed queue store of
`src/backend/queue_db.py` and the two polling worker loops of
`src/backend/web.py` (`_queue_worker_loop`) and
`src/backend/api/web.py` (`_queue_worker_loop_api`).

Modelling choices, documented once here:
* The `queue` table is a list of rows kept in insertion (rowid) order;
  `id INTEGER PRIMARY KEY AUTOINCREMENT` is a `nextId` counter, so ids
  are handed out in increasing order and never reused.
* `REAL` timestamps (`time.time()`) are abstract instants modelled as
  `Nat`; every operation that calls `time.time()` takes the instant as
  an explicit argument.
* Serialized JSON values (`json.dumps(result)`,
  `json.dumps(\x7b"error": e\x7d)`) are modelled by the tagged type
  `JobResult`, which records exactly the information the code stores:
  a success payload string or an error string.
* Each `queue_db.py` function opens a connection, performs one
  transaction and closes; accordingly every operation is one atomic
  function on the logical store state.  `init_db` only creates the
  schema and migrates columns, which is the identity on the logical
  state, so it is not modelled separately.
-/

namespace FastSDQueue

/-- Job status strings stored in the `status` column:
`"queued" | "running" | "done" | "failed" | "cancelled"`. -/
inductive Status where
  | queued
  | running
  | done
  | failed
  | cancelled
deriving DecidableEq, Repr

/-- The serialized `result` column: `complete_job` stores
`json.dumps(result)` (a success payload), `fail_job` and the orphan
ceiling of `reset_orphaned_jobs` store `json.dumps` of an error
dictionary carrying one error string. -/
inductive JobResult where
  | success (payload : String)
  | error (message : String)
deriving DecidableEq, Repr

/-- One row of the `queue` table (schema in `init_db`). -/
structure Job where
  id : Nat
  payload : String
  status : Status
  createdAt : Nat
  startedAt : Option Nat
  finishedAt : Option Nat
  result : Option JobResult
  payloadJsonPath : Option String
  progress : Option String
  retryCount : Nat
deriving DecidableEq, Repr

/-- The whole database: the `queue` table (rows in rowid order), the
`AUTOINCREMENT` counter, and the `queue_settings` key/value table. -/
structure Store where
  jobs : List Job
  nextId : Nat
  settings : List (String × String)
deriving DecidableEq, Repr

/-- A freshly `init_db`-created database: no rows, no settings,
`AUTOINCREMENT` starting at 1. -/
def initStore : Store := { jobs := [], nextId := 1, settings := [] }

/-- A concrete row builder for the evaluated examples below: a row with
the given id, status, `created_at` and `retry_count`, all other nullable
columns NULL. -/
def mkJob (id : Nat) (st : Status) (created rc : Nat) : Job :=
  { id := id
    payload := "p"
    status := st
    createdAt := created
    startedAt := none
    finishedAt := none
    result := none
    payloadJsonPath := none
    progress := none
    retryCount := rc }

/-- `enqueue_job`: INSERT a row with status `"queued"`, `created_at =
now` and the `retry_count INTEGER DEFAULT 0` column default; returns
`cur.lastrowid`. -/
def enqueue_job (s : Store) (payload : String) (payloadJsonPath : Option String)
    (now : Nat) : Nat × Store :=
  let j : Job :=
    { id := s.nextId
      payload := payload
      status := Status.queued
      createdAt := now
      startedAt := none
      finishedAt := none
      result := none
      payloadJsonPath := payloadJsonPath
      progress := none
      retryCount := 0 }
  (s.nextId, { s with jobs := s.jobs ++ [j], nextId := s.nextId + 1 })

/-- `get_job`: `SELECT * FROM queue WHERE id = ?`, `None` when no row
matches (`id` is the primary key, so the first match is the row). -/
def get_job (s : Store) (jobId : Nat) : Option Job :=
  s.jobs.find? (fun j => j.id == jobId)

/-- The `SELECT * FROM queue WHERE status = 'queued' ORDER BY created_at
ASC LIMIT 1` of `pop_next_job`: scan the rows in rowid order and keep
the first row attaining the minimal `created_at` among queued rows
(SQLite's scan order breaks `created_at` ties by rowid). -/
def selectOldestQueued : List Job → Option Job
  | [] => none
  | j :: rest =>
    if j.status = Status.queued then
      match selectOldestQueued rest with
      | none => some j
      | some b => if b.createdAt < j.createdAt then some b else some j
    else
      selectOldestQueued rest

/-- `pop_next_job`: inside one `BEGIN IMMEDIATE` transaction, select the
oldest queued row; if none, commit and return `None`; otherwise capture
the row (`job = dict(row)`), UPDATE it to `status = "running"`,
`started_at = now`, commit, and return the captured pre-update row. -/
def pop_next_job (s : Store) (now : Nat) : Option Job × Store :=
  match selectOldestQueued s.jobs with
  | none => (none, s)
  | some j =>
    (some j,
     { s with
        jobs := s.jobs.map (fun r =>
          if r.id == j.id then
            { r with status := Status.running, startedAt := some now }
          else r) })

/-- `complete_job`: unconditional
`UPDATE queue SET status = 'done', finished_at = ?, result = ? WHERE id = ?`. -/
def complete_job (s : Store) (jobId : Nat) (result : String) (now : Nat) : Store :=
  { s with
      jobs := s.jobs.map (fun r =>
        if r.id == jobId then
          { r with
              status := Status.done
              finishedAt := some now
              result := some (JobResult.success result) }
        else r) }

/-- `fail_job`: unconditional
`UPDATE queue SET status = 'failed', finished_at = ?, result = ? WHERE id = ?`,
the result being `json.dumps` of an error dictionary. -/
def fail_job (s : Store) (jobId : Nat) (error : String) (now : Nat) : Store :=
  { s with
      jobs := s.jobs.map (fun r =>
        if r.id == jobId then
          { r with
              status := Status.failed
              finishedAt := some now
              result := some (JobResult.error error) }
        else r) }

/-- `update_job_progress`: `UPDATE queue SET progress = ? WHERE id = ?`;
no status change. -/
def update_job_progress (s : Store) (jobId : Nat) (progressData : String) : Store :=
  { s with
      jobs := s.jobs.map (fun r =>
        if r.id == jobId then { r with progress := some progressData } else r) }

/-- `cancel_job`: SELECT the row's status; return `False` when the row
is missing or its status is not `"queued"`; otherwise UPDATE the status
to `"cancelled"` and return `True`. -/
def cancel_job (s : Store) (jobId : Nat) : Bool × Store :=
  match get_job s jobId with
  | none => (false, s)
  | some row =>
    if row.status ≠ Status.queued then
      (false, s)
    else
      (true,
       { s with
          jobs := s.jobs.map (fun r =>
            if r.id == jobId then { r with status := Status.cancelled } else r) })

/-- The progress note `f"Retry #\x7bnew_retry_count\x7d after restart"`
written by `reset_orphaned_jobs` when it requeues an orphan. -/
def retryNote (n : Nat) : String :=
  "Retry #" ++ toString n ++ " after restart"

/-- The error string
`f"Job failed after \x7bnew_retry_count\x7d attempts (interrupted by restarts)"`
written by `reset_orphaned_jobs` when the retry ceiling is exceeded. -/
def orphanError (n : Nat) : String :=
  "Job failed after " ++ toString n ++ " attempts (interrupted by restarts)"

/-- The per-row effect of `reset_orphaned_jobs`: only `"running"` rows
are selected; `new_retry_count = retry_count + 1` (`retry_count or 0`
never differs from `retry_count` here because the column defaults to
0); above the ceiling 3 the row is failed, otherwise requeued with
`started_at = NULL` and a retry note in `progress`. -/
def resetOrphanRow (now : Nat) (r : Job) : Job :=
  if r.status = Status.running then
    let n := r.retryCount + 1
    if n > 3 then
      { r with
          status := Status.failed
          finishedAt := some now
          result := some (JobResult.error (orphanError n))
          retryCount := n }
    else
      { r with
          status := Status.queued
          startedAt := none
          progress := some (retryNote n)
          retryCount := n }
  else r

/-- `reset_orphaned_jobs`: select all `"running"` rows, update each by
id as in `resetOrphanRow`, and return how many running rows were
found.  Updating each selected id in turn equals mapping the per-row
effect, since only `"running"` rows are updated and ids select rows. -/
def reset_orphaned_jobs (s : Store) (now : Nat) : Nat × Store :=
  ((s.jobs.filter (fun r => r.status == Status.running)).length,
   { s with jobs := s.jobs.map (resetOrphanRow now) })

/-- `SELECT value FROM queue_settings WHERE key = ?`. -/
def settingsGet (kvs : List (String × String)) (key : String) : Option String :=
  (kvs.find? (fun kv => kv.1 == key)).map (fun kv => kv.2)

/-- `INSERT OR REPLACE INTO queue_settings (key, value) VALUES (?, ?)`:
replace the row with that key, or append a new row. -/
def settingsPut (kvs : List (String × String)) (key value : String) :
    List (String × String) :=
  if kvs.any (fun kv => kv.1 == key) then
    kvs.map (fun kv => if kv.1 == key then (key, value) else kv)
  else
    kvs ++ [(key, value)]

/-- `is_queue_paused`: read the `'paused'` key; a missing row reads
`False`, otherwise the result is `value == "true"`. -/
def is_queue_paused (s : Store) : Bool :=
  match settingsGet s.settings "paused" with
  | none => false
  | some v => v == "true"

/-- `set_queue_paused`: store `"true"`/`"false"` under the `'paused'`
key with INSERT OR REPLACE. -/
def set_queue_paused (s : Store) (paused : Bool) : Store :=
  { s with
      settings := settingsPut s.settings "paused" (if paused then "true" else "false") }

/-- One call into the queue store, used to quantify over "every store
operation" (each `queue_db.py` function is one transaction). -/
inductive StoreOp where
  | enqueue (payload : String) (payloadJsonPath : Option String) (now : Nat)
  | pop (now : Nat)
  | complete (jobId : Nat) (result : String) (now : Nat)
  | fail (jobId : Nat) (error : String) (now : Nat)
  | updateProgress (jobId : Nat) (progressData : String)
  | cancel (jobId : Nat)
  | resetOrphans (now : Nat)
  | setPaused (b : Bool)
deriving DecidableEq, Repr

/-- The state transition of one store operation (return values dropped). -/
def applyOp (s : Store) : StoreOp → Store
  | StoreOp.enqueue p pjp now => (enqueue_job s p pjp now).2
  | StoreOp.pop now => (pop_next_job s now).2
  | StoreOp.complete jobId r now => complete_job s jobId r now
  | StoreOp.fail jobId e now => fail_job s jobId e now
  | StoreOp.updateProgress jobId p => update_job_progress s jobId p
  | StoreOp.cancel jobId => (cancel_job s jobId).2
  | StoreOp.resetOrphans now => (reset_orphaned_jobs s now).2
  | StoreOp.setPaused b => set_queue_paused s b

/-- Apply a sequence of store operations in order. -/
def opsApply (ops : List StoreOp) (s : Store) : Store :=
  ops.foldl applyOp s

/-- Number of rows with status `"queued"` in a row list. -/
def countQueuedL (l : List Job) : Nat :=
  (l.filter (fun j => j.status == Status.queued)).length

/-- Number of rows with status `"queued"`. -/
def countQueued (s : Store) : Nat :=
  countQueuedL s.jobs

/-- A terminal status: `done`, `failed` or `cancelled`. -/
def Status.isTerminal : Status → Bool
  | Status.done => true
  | Status.failed => true
  | Status.cancelled => true
  | _ => false

/-- Well-formedness maintained by the store: every row id is below the
`AUTOINCREMENT` counter. -/
def Store.wf (s : Store) : Prop :=
  ∀ j ∈ s.jobs, j.id < s.nextId

instance (s : Store) : Decidable s.wf := by
  unfold Store.wf; infer_instance

/-! ### The two polling worker loops

`_queue_worker_loop` (`src/backend/web.py`) and `_queue_worker_loop_api`
(`src/backend/api/web.py`) are each modelled as the body of one `while
True` iteration.  External collaborators — pydantic payload validation,
`context.generate_text_to_image`, `context.save_images` — do not touch
the queue store; their outcomes are oracle fields of `IterEnv`.
Concurrent store activity by other threads (HTTP handlers calling
`cancel_job` etc.) can interleave with the iteration wherever the worker
is busy off-store; it is modelled by the arbitrary store transformers
`iA`, `iB`, `iC`, applied while the worker parses/generates/saves, i.e.
right before each of the three cancellation-checkpoint reads. -/

/-- Oracle for one worker-loop iteration: outcomes of the external
collaborators, concurrent store interference, and the clock readings. -/
structure IterEnv where
  /-- Payload deserializes into `LCMDiffusionSetting` (via
  `model_validate` or the `parse_obj` fallback). -/
  parseOk : Bool
  /-- Exception text when both validators raise. -/
  parseExc : String
  /-- `context.generate_text_to_image` raises. -/
  genRaises : Bool
  genExc : String
  /-- The images returned by generation: `None` or a list. -/
  images : Option (List String)
  /-- `context.error` after generation. -/
  genError : Option String
  /-- `context.save_images` raises. -/
  saveRaises : Bool
  saveExc : String
  /-- Artifact identifiers returned by `context.save_images`. -/
  saved : List String
  /-- `context.latency`. -/
  latency : Nat
  /-- Concurrent store activity before the checkpoint-A read. -/
  iA : Store → Store
  /-- Concurrent store activity during generation (before checkpoint B). -/
  iB : Store → Store
  /-- Concurrent store activity during saving (before checkpoint C). -/
  iC : Store → Store
  nowPop : Nat
  nowComplete : Nat
  nowFail : Nat

/-- Observable outcome of one worker-loop iteration: final store plus an
instrumentation record of which store calls the iteration made and what
each cancellation checkpoint read (`none` when never reached, or when
`get_job` found no row — the code then proceeds). -/
structure IterOut where
  store : Store
  /-- `pop_next_job` was called this iteration. -/
  claimAttempted : Bool
  /-- Id of the job this iteration claimed, if any. -/
  claimed : Option Nat
  checkA : Option Status
  checkB : Option Status
  checkC : Option Status
  /-- `context.save_images` was invoked. -/
  saveCalled : Bool
  /-- `complete_job` was invoked for the claimed job. -/
  completeCalled : Bool
  /-- `fail_job` was invoked for the claimed job. -/
  failCalled : Bool

/-- Python truthiness of the `images` value in `if images:`
(`None` and `[]` are falsy). -/
def imagesTruthy : Option (List String) → Bool
  | none => false
  | some l => !l.isEmpty

/-- Models `json.dumps` of the success dictionary
`\x7b"saved": saved, "latency": latency\x7d` passed to `complete_job`. -/
def encodeSaved (saved : List String) (latency : Nat) : String :=
  "saved: " ++ String.intercalate ", " saved ++ "; latency: " ++ toString latency

/-- One iteration of `_queue_worker_loop` (`src/backend/web.py`,
lines 571–659): pause gate, claim, parse, checkpoint A, generate under
the pipeline lock, checkpoint B, save, checkpoint C, then
`complete_job`/`fail_job`; exceptions from parse/generate/save reach the
outer handler, which fails the claimed job. -/
def webWorkerIteration (s : Store) (env : IterEnv) : IterOut :=
  if is_queue_paused s then
    -- paused: sleep(poll_interval); continue — no claim attempt
    { store := s, claimAttempted := false, claimed := none,
      checkA := none, checkB := none, checkC := none,
      saveCalled := false, completeCalled := false, failCalled := false }
  else
    match pop_next_job s env.nowPop with
    | (none, s1) =>
      { store := s1, claimAttempted := true, claimed := none,
        checkA := none, checkB := none, checkC := none,
        saveCalled := false, completeCalled := false, failCalled := false }
    | (some job, s1) =>
      let jid := job.id
      if env.parseOk = false then
        -- both pydantic validators raise; the outer `except` fails the job
        { store := fail_job s1 jid env.parseExc env.nowFail,
          claimAttempted := true, claimed := some jid,
          checkA := none, checkB := none, checkC := none,
          saveCalled := false, completeCalled := false, failCalled := true }
      else
        let sA := env.iA s1
        let stA := (get_job sA jid).map Job.status
        if stA = some Status.cancelled then
          -- "Job cancelled before generation started": continue
          { store := sA, claimAttempted := true, claimed := some jid,
            checkA := stA, checkB := none, checkC := none,
            saveCalled := false, completeCalled := false, failCalled := false }
        else
          -- generation runs under `pipeline_lock`; `iB` is concurrent
          -- store activity while it runs
          let sB := env.iB sA
          if env.genRaises then
            { store := fail_job sB jid env.genExc env.nowFail,
              claimAttempted := true, claimed := some jid,
              checkA := stA, checkB := none, checkC := none,
              saveCalled := false, completeCalled := false, failCalled := true }
          else
            let stB := (get_job sB jid).map Job.status
            if stB = some Status.cancelled then
              -- "cancelled after generation, not saving files": continue
              { store := sB, claimAttempted := true, claimed := some jid,
                checkA := stA, checkB := stB, checkC := none,
                saveCalled := false, completeCalled := false, failCalled := false }
            else
              if imagesTruthy env.images then
                -- `context.save_images`; `iC` is concurrent activity during it
                let sC := env.iC sB
                if env.saveRaises then
                  { store := fail_job sC jid env.saveExc env.nowFail,
                    claimAttempted := true, claimed := some jid,
                    checkA := stA, checkB := stB, checkC := none,
                    saveCalled := true, completeCalled := false, failCalled := true }
                else
                  let stC := (get_job sC jid).map Job.status
                  if stC = some Status.cancelled then
                    -- "cancelled after saving": continue, no `complete_job`
                    { store := sC, claimAttempted := true, claimed := some jid,
                      checkA := stA, checkB := stB, checkC := stC,
                      saveCalled := true, completeCalled := false, failCalled := false }
                  else
                    { store := complete_job sC jid
                        (encodeSaved env.saved env.latency) env.nowComplete,
                      claimAttempted := true, claimed := some jid,
                      checkA := stA, checkB := stB, checkC := stC,
                      saveCalled := true, completeCalled := true, failCalled := false }
              else
                { store := fail_job sB jid
                    (env.genError.getD "no images generated") env.nowFail,
                  claimAttempted := true, claimed := some jid,
                  checkA := stA, checkB := stB, checkC := none,
                  saveCalled := false, completeCalled := false, failCalled := true }

/-- One iteration of `_queue_worker_loop_api` (`src/backend/api/web.py`,
lines 405–534).  Note: this loop has **no pause gate** — it claims
unconditionally.  The progress payloads (JSON dictionaries with a
`phase` key and timestamps) are modelled by their phase strings. -/
def apiWorkerIteration (s : Store) (env : IterEnv) : IterOut :=
  match pop_next_job s env.nowPop with
  | (none, s1) =>
    { store := s1, claimAttempted := true, claimed := none,
      checkA := none, checkB := none, checkC := none,
      saveCalled := false, completeCalled := false, failCalled := false }
  | (some job, s1) =>
    let jid := job.id
    let s2 := update_job_progress s1 jid "validating"
    if env.parseOk = false then
      -- `f"Failed to parse payload: \x7be2\x7d"` then continue
      { store := fail_job s2 jid ("Failed to parse payload: " ++ env.parseExc) env.nowFail,
        claimAttempted := true, claimed := some jid,
        checkA := none, checkB := none, checkC := none,
        saveCalled := false, completeCalled := false, failCalled := true }
    else
      let sA := env.iA s2
      let stA := (get_job sA jid).map Job.status
      if stA = some Status.cancelled then
        { store := sA, claimAttempted := true, claimed := some jid,
          checkA := stA, checkB := none, checkC := none,
          saveCalled := false, completeCalled := false, failCalled := false }
      else
        let s3 := update_job_progress sA jid "loading_model"
        let s4 := update_job_progress s3 jid "generating"
        let sB := env.iB s4
        if env.genRaises then
          { store := fail_job sB jid ("Image generation exception: " ++ env.genExc) env.nowFail,
            claimAttempted := true, claimed := some jid,
            checkA := stA, checkB := none, checkC := none,
            saveCalled := false, completeCalled := false, failCalled := true }
        else
          -- the api loop checks `if images is None:` (strict), before checkpoint B
          if env.images = none then
            { store := fail_job sB jid
                (env.genError.getD "Image generation returned None") env.nowFail,
              claimAttempted := true, claimed := some jid,
              checkA := stA, checkB := none, checkC := none,
              saveCalled := false, completeCalled := false, failCalled := true }
          else
            let stB := (get_job sB jid).map Job.status
            if stB = some Status.cancelled then
              { store := sB, claimAttempted := true, claimed := some jid,
                checkA := stA, checkB := stB, checkC := none,
                saveCalled := false, completeCalled := false, failCalled := false }
            else
              let s5 := update_job_progress sB jid "saving"
              let sC := env.iC s5
              if env.saveRaises then
                { store := fail_job sC jid ("Failed to save images: " ++ env.saveExc) env.nowFail,
                  claimAttempted := true, claimed := some jid,
                  checkA := stA, checkB := stB, checkC := none,
                  saveCalled := true, completeCalled := false, failCalled := true }
              else
                let stC := (get_job sC jid).map Job.status
                if stC = some Status.cancelled then
                  { store := sC, claimAttempted := true, claimed := some jid,
                    checkA := stA, checkB := stB, checkC := stC,
                    saveCalled := true, completeCalled := false, failCalled := false }
                else
                  { store := complete_job sC jid
                      (encodeSaved env.saved env.latency) env.nowComplete,
                    claimAttempted := true, claimed := some jid,
                    checkA := stA, checkB := stB, checkC := stC,
                    saveCalled := true, completeCalled := true, failCalled := false }

/-! ### Helper lemmas -/

/-- `UPDATE ... WHERE id = ?` commutes with `SELECT ... WHERE id = ?`
when the update preserves ids. -/
lemma find?_map_of_id (l : List Job) (f : Job → Job)
    (hf : ∀ r, (f r).id = r.id) (k : Nat) :
    (l.map f).find? (fun j => j.id == k) = (l.find? (fun j => j.id == k)).map f := by
  induction l with
  | nil => rfl
  | cons a t ih =>
    by_cases h : a.id = k
    · have hfa : ((f a).id == k) = true := by simp [hf a, h]
      have ha : (a.id == k) = true := by simp [h]
      simp [List.find?, hfa, ha]
    · have hfa : ((f a).id == k) = false := by simp [hf a, h]
      have ha : (a.id == k) = false := by simp [h]
      simp [List.find?, hfa, ha, ih]

lemma get_map_job (l : List Job) (f : Job → Job) (i : Nat)
    (hi : i < l.length) (hi' : i < (l.map f).length) :
    (l.map f).get ⟨i, hi'⟩ = f (l.get ⟨i, hi⟩) := by
  simp [List.get_eq_getElem, List.getElem_map]

lemma get_of_store_eq (s1 s2 : Store) (h : s1 = s2) (i : Nat)
    (hi1 : i < s1.jobs.length) (hi2 : i < s2.jobs.length) :
    s1.jobs.get ⟨i, hi1⟩ = s2.jobs.get ⟨i, hi2⟩ := by
  subst h
  rfl

/-- The scan returns nothing exactly when no row is queued. -/
lemma selectOldestQueued_eq_none (l : List Job) :
    selectOldestQueued l = none ↔ ∀ j ∈ l, j.status ≠ Status.queued := by
  induction l with
  | nil => simp [selectOldestQueued]
  | cons a t ih =>
    by_cases ha : a.status = Status.queued
    · simp only [selectOldestQueued, if_pos ha]
      constructor
      · intro h
        exfalso
        cases hsel : selectOldestQueued t with
        | none => rw [hsel] at h; dsimp only at h; exact Option.noConfusion h
        | some b =>
          rw [hsel] at h; dsimp only at h
          by_cases hlt : b.createdAt < a.createdAt
          · rw [if_pos hlt] at h; exact Option.noConfusion h
          · rw [if_neg hlt] at h; exact Option.noConfusion h
      · intro h
        exact absurd ha (h a (List.mem_cons_self a t))
    · simp only [selectOldestQueued, if_neg ha]
      rw [ih]
      constructor
      · intro h j hj
        rcases List.mem_cons.mp hj with rfl | hj
        · exact ha
        · exact h j hj
      · intro h j hj
        exact h j (List.mem_cons_of_mem a hj)

/-- A selected row is a queued row of the table. -/
lemma selectOldestQueued_mem : ∀ (l : List Job) (j : Job),
    selectOldestQueued l = some j → j ∈ l ∧ j.status = Status.queued := by
  intro l
  induction l with
  | nil => intro j h; simp [selectOldestQueued] at h
  | cons a t ih =>
    intro j h
    by_cases ha : a.status = Status.queued
    · simp only [selectOldestQueued, if_pos ha] at h
      cases hsel : selectOldestQueued t with
      | none =>
        rw [hsel] at h; dsimp only at h
        obtain rfl : a = j := by injection h
        exact ⟨List.mem_cons_self a t, ha⟩
      | some b =>
        rw [hsel] at h; dsimp only at h
        by_cases hlt : b.createdAt < a.createdAt
        · rw [if_pos hlt] at h
          obtain rfl : b = j := by injection h
          obtain ⟨hm, hq⟩ := ih _ hsel
          exact ⟨List.mem_cons_of_mem a hm, hq⟩
        · rw [if_neg hlt] at h
          obtain rfl : a = j := by injection h
          exact ⟨List.mem_cons_self a t, ha⟩
    · simp only [selectOldestQueued, if_neg ha] at h
      obtain ⟨hm, hq⟩ := ih j h
      exact ⟨List.mem_cons_of_mem a hm, hq⟩

/-- The selected row has minimal `created_at` among queued rows. -/
lemma selectOldestQueued_min : ∀ (l : List Job) (j : Job),
    selectOldestQueued l = some j →
    ∀ r ∈ l, r.status = Status.queued → j.createdAt ≤ r.createdAt := by
  intro l
  induction l with
  | nil => intro j h; simp [selectOldestQueued] at h
  | cons a t ih =>
    intro j h r hr hrq
    by_cases ha : a.status = Status.queued
    · simp only [selectOldestQueued, if_pos ha] at h
      cases hsel : selectOldestQueued t with
      | none =>
        rw [hsel] at h; dsimp only at h
        obtain rfl : a = j := by injection h
        rcases List.mem_cons.mp hr with rfl | hr
        · exact le_refl _
        · exact absurd hrq ((selectOldestQueued_eq_none t).mp hsel r hr)
      | some b =>
        rw [hsel] at h; dsimp only at h
        by_cases hlt : b.createdAt < a.createdAt
        · rw [if_pos hlt] at h
          obtain rfl : b = j := by injection h
          rcases List.mem_cons.mp hr with rfl | hr
          · exact le_of_lt hlt
          · exact ih _ hsel r hr hrq
        · rw [if_neg hlt] at h
          obtain rfl : a = j := by injection h
          rcases List.mem_cons.mp hr with rfl | hr
          · exact le_refl _
          · exact le_trans (le_of_not_lt hlt) (ih b hsel r hr hrq)
    · simp only [selectOldestQueued, if_neg ha] at h
      rcases List.mem_cons.mp hr with rfl | hr
      · exact absurd hrq ha
      · exact ih j h r hr hrq

/-- Ties on `created_at` go to the row that comes first in rowid order:
when ids strictly increase along the table, every other queued row is
either strictly younger or has the same `created_at` and a larger id. -/
lemma selectOldestQueued_tiebreak : ∀ (l : List Job),
    l.Pairwise (fun x y => x.id < y.id) → ∀ (j : Job),
    selectOldestQueued l = some j →
    ∀ r ∈ l, r.status = Status.queued → r.id ≠ j.id →
      j.createdAt < r.createdAt ∨ (j.createdAt = r.createdAt ∧ j.id < r.id) := by
  intro l
  induction l with
  | nil => intro _ j h; simp [selectOldestQueued] at h
  | cons a t ih =>
    intro hp j h r hr hrq hrid
    obtain ⟨hall, hp'⟩ := List.pairwise_cons.mp hp
    by_cases ha : a.status = Status.queued
    · simp only [selectOldestQueued, if_pos ha] at h
      cases hsel : selectOldestQueued t with
      | none =>
        rw [hsel] at h; dsimp only at h
        obtain rfl : a = j := by injection h
        rcases List.mem_cons.mp hr with rfl | hr
        · exact absurd rfl hrid
        · exact absurd hrq ((selectOldestQueued_eq_none t).mp hsel r hr)
      | some b =>
        rw [hsel] at h; dsimp only at h
        by_cases hlt : b.createdAt < a.createdAt
        · rw [if_pos hlt] at h
          obtain rfl : b = j := by injection h
          rcases List.mem_cons.mp hr with rfl | hr
          · exact Or.inl hlt
          · exact ih hp' _ hsel r hr hrq hrid
        · rw [if_neg hlt] at h
          obtain rfl : a = j := by injection h
          rcases List.mem_cons.mp hr with rfl | hr
          · exact absurd rfl hrid
          · have hbr : b.createdAt ≤ r.createdAt :=
              selectOldestQueued_min t b hsel r hr hrq
            have hab : a.createdAt ≤ b.createdAt := le_of_not_lt hlt
            rcases lt_or_eq_of_le (le_trans hab hbr) with hlt2 | heq
            · exact Or.inl hlt2
            · exact Or.inr ⟨heq, hall r hr⟩
    · simp only [selectOldestQueued, if_neg ha] at h
      rcases List.mem_cons.mp hr with rfl | hr
      · exact absurd hrq ha
      · exact ih hp' j h r hr hrq hrid

lemma countQueuedL_cons (x : Job) (t : List Job) :
    countQueuedL (x :: t) =
      (if x.status = Status.queued then 1 else 0) + countQueuedL t := by
  by_cases hx : x.status = Status.queued
  · simp [countQueuedL, List.filter_cons, hx, Nat.add_comm]
  · simp [countQueuedL, List.filter_cons, hx]

/-- Claiming the selected queued row removes exactly one row from the
queued count (ids are unique along the table, so the `WHERE id = ?`
update hits exactly the selected row). -/
lemma countQueuedL_map_claim (now : Nat) : ∀ (l : List Job),
    l.Pairwise (fun x y => x.id < y.id) → ∀ j ∈ l, j.status = Status.queued →
    countQueuedL (l.map (fun r =>
      if r.id == j.id then { r with status := Status.running, startedAt := some now }
      else r)) + 1 = countQueuedL l := by
  intro l
  induction l with
  | nil => intro _ j hj; simp at hj
  | cons a t ih =>
    intro hp j hj hjq
    obtain ⟨hall, hp'⟩ := List.pairwise_cons.mp hp
    rcases List.mem_cons.mp hj with rfl | hj
    · -- the head is the claimed row; all tail ids are larger, untouched
      have hmap : t.map (fun r =>
          if r.id == j.id then { r with status := Status.running, startedAt := some now }
          else r) = t := by
        have heach : ∀ b ∈ t,
            (if b.id == j.id then { b with status := Status.running, startedAt := some now }
             else b) = id b := by
          intro b hb
          have hne : b.id ≠ j.id := ne_of_gt (hall b hb)
          simp [hne]
        exact (List.map_congr_left heach).trans (List.map_id t)
      simp only [List.map_cons, hmap, beq_self_eq_true, if_true]
      rw [countQueuedL_cons, countQueuedL_cons]
      simp [hjq]
      omega
    · -- the head keeps its row; recurse on the tail
      have hane : a.id ≠ j.id := ne_of_lt (hall j hj)
      have hfa : (if a.id == j.id then { a with status := Status.running, startedAt := some now }
          else a) = a := by simp [hane]
      simp only [List.map_cons, hfa]
      rw [countQueuedL_cons, countQueuedL_cons]
      have hih := ih hp' j hj hjq
      rw [Nat.add_assoc, hih]

/-- Along a table with strictly increasing ids, a member is determined
by its id. -/
lemma id_inj_of_pairwise : ∀ (l : List Job),
    l.Pairwise (fun x y => x.id < y.id) →
    ∀ x ∈ l, ∀ y ∈ l, x.id = y.id → x = y := by
  intro l
  induction l with
  | nil => intro _ x hx; simp at hx
  | cons a t ih =>
    intro hp x hx y hy hxy
    obtain ⟨hall, hp'⟩ := List.pairwise_cons.mp hp
    rcases List.mem_cons.mp hx with hxa | hx
    · rcases List.mem_cons.mp hy with hya | hy
      · rw [hxa, hya]
      · rw [hxa] at hxy
        exact absurd hxy (ne_of_lt (hall y hy))
    · rcases List.mem_cons.mp hy with hya | hy
      · rw [hya] at hxy
        exact absurd hxy (ne_of_gt (hall x hx))
      · exact ih hp' x hx y hy hxy

/-- `resetOrphanRow` preserves the row id. -/
lemma resetOrphanRow_id (now : Nat) (r : Job) : (resetOrphanRow now r).id = r.id := by
  unfold resetOrphanRow
  split
  · dsimp only
    split <;> rfl
  · rfl

/-- A row that is not running is untouched by `resetOrphanRow`. -/
lemma resetOrphanRow_not_running (now : Nat) (r : Job)
    (h : r.status ≠ Status.running) : resetOrphanRow now r = r := by
  unfold resetOrphanRow
  exact if_neg h

/-- No store operation lowers the `AUTOINCREMENT` counter. -/
lemma applyOp_nextId (s : Store) (op : StoreOp) :
    s.nextId ≤ (applyOp s op).nextId := by
  cases op with
  | enqueue p pjp now => simp [applyOp, enqueue_job]
  | pop now =>
    simp only [applyOp, pop_next_job]
    cases selectOldestQueued s.jobs <;> simp
  | complete jobId r now => simp [applyOp, complete_job]
  | fail jobId e now => simp [applyOp, fail_job]
  | updateProgress jobId p => simp [applyOp, update_job_progress]
  | cancel jobId =>
    simp only [applyOp, cancel_job]
    cases get_job s jobId with
    | none => simp
    | some row =>
      by_cases hq : row.status = Status.queued <;> simp [hq]
  | resetOrphans now => simp [applyOp, reset_orphaned_jobs]
  | setPaused b => simp [applyOp, set_queue_paused]

lemma opsApply_nextId (ops : List StoreOp) (s : Store) :
    s.nextId ≤ (opsApply ops s).nextId := by
  induction ops generalizing s with
  | nil => exact le_refl _
  | cons op rest ih =>
    calc s.nextId ≤ (applyOp s op).nextId := applyOp_nextId s op
    _ ≤ (opsApply rest (applyOp s op)).nextId := ih (applyOp s op)

lemma wf_map (s : Store) (f : Job → Job) (hf : ∀ r, (f r).id = r.id)
    (h : s.wf) : Store.wf { s with jobs := s.jobs.map f } := by
  intro j hj
  obtain ⟨r, hr, rfl⟩ := List.mem_map.mp hj
  simpa [hf r] using h r hr

/-- Every store operation keeps row ids below the counter. -/
lemma applyOp_wf (s : Store) (op : StoreOp) (h : s.wf) : (applyOp s op).wf := by
  cases op with
  | enqueue p pjp now =>
    intro j hj
    simp only [applyOp, enqueue_job, List.mem_append, List.mem_singleton] at hj
    rcases hj with hj | rfl
    · exact Nat.lt_succ_of_lt (h j hj)
    · exact Nat.lt_succ_self _
  | pop now =>
    simp only [applyOp, pop_next_job]
    cases selectOldestQueued s.jobs with
    | none => exact h
    | some j0 =>
      exact wf_map s
        (fun r => if r.id == j0.id then
          { r with status := Status.running, startedAt := some now } else r)
        (fun r => by dsimp only; split <;> rfl) h
  | complete jobId r now =>
    exact wf_map s
      (fun r0 => if r0.id == jobId then
        { r0 with status := Status.done, finishedAt := some now,
                  result := some (JobResult.success r) } else r0)
      (fun r0 => by dsimp only; split <;> rfl) h
  | fail jobId e now =>
    exact wf_map s
      (fun r0 => if r0.id == jobId then
        { r0 with status := Status.failed, finishedAt := some now,
                  result := some (JobResult.error e) } else r0)
      (fun r0 => by dsimp only; split <;> rfl) h
  | updateProgress jobId p =>
    exact wf_map s
      (fun r0 => if r0.id == jobId then { r0 with progress := some p } else r0)
      (fun r0 => by dsimp only; split <;> rfl) h
  | cancel jobId =>
    simp only [applyOp, cancel_job]
    cases get_job s jobId with
    | none => exact h
    | some row =>
      by_cases hq : row.status = Status.queued
      · simp only [hq, ne_eq, not_true_eq_false, if_neg, not_false_eq_true,
          reduceIte]
        exact wf_map s
          (fun r0 => if r0.id == jobId then { r0 with status := Status.cancelled } else r0)
          (fun r0 => by dsimp only; split <;> rfl) h
      · simp only [hq, ne_eq, not_false_eq_true, if_pos, reduceIte]
        exact h
  | resetOrphans now =>
    exact wf_map s (resetOrphanRow now) (resetOrphanRow_id now) h
  | setPaused b =>
    intro j hj
    exact h j hj

/-- Only `set_queue_paused` writes the `queue_settings` table. -/
lemma applyOp_settings (s : Store) (op : StoreOp)
    (h : ∀ b, op ≠ StoreOp.setPaused b) :
    (applyOp s op).settings = s.settings := by
  cases op with
  | enqueue p pjp now => rfl
  | pop now =>
    simp only [applyOp, pop_next_job]
    cases selectOldestQueued s.jobs <;> rfl
  | complete jobId r now => rfl
  | fail jobId e now => rfl
  | updateProgress jobId p => rfl
  | cancel jobId =>
    simp only [applyOp, cancel_job]
    cases get_job s jobId with
    | none => rfl
    | some row =>
      by_cases hq : row.status = Status.queued <;> simp [hq]
  | resetOrphans now => rfl
  | setPaused b => exact absurd rfl (h b)

/-- Claiming is the only update `pop_next_job` makes, and it preserves
the strictly-increasing-id invariant of the table. -/
lemma pairwise_map_id_preserving (l : List Job) (f : Job → Job)
    (hf : ∀ r, (f r).id = r.id)
    (hp : l.Pairwise (fun x y => x.id < y.id)) :
    (l.map f).Pairwise (fun x y => x.id < y.id) := by
  rw [List.pairwise_map]
  refine hp.imp ?_
  intro x y hxy
  simpa [hf x, hf y] using hxy

/-! ### Sequential claims (`popMany`)

`pop_next_job` runs inside one `BEGIN IMMEDIATE` transaction, so a set
of concurrent claimers serializes: any concurrent execution is some
order of atomic claims.  `popMany` is that linearization — one
`pop_next_job` per caller, each with its own clock reading. -/

def popMany : List Nat → Store → List (Option Job) × Store
  | [], s => ([], s)
  | t :: ts, s =>
    match pop_next_job s t with
    | (r, s') =>
      match popMany ts s' with
      | (rs, s'') => (r :: rs, s'')

/-- How many of the callers got a job. -/
def countSome (l : List (Option Job)) : Nat :=
  (l.filter (fun o => o.isSome)).length

lemma pop_of_countQueued_zero (s : Store) (t : Nat) (h : countQueued s = 0) :
    pop_next_job s t = (none, s) := by
  have hsel : selectOldestQueued s.jobs = none := by
    rw [selectOldestQueued_eq_none]
    intro j hj
    have : s.jobs.filter (fun j => j.status == Status.queued) = [] := by
      simpa [countQueued, countQueuedL, List.length_eq_zero] using h
    intro hq
    have : j ∈ s.jobs.filter (fun j => j.status == Status.queued) :=
      List.mem_filter.mpr ⟨hj, by simp [hq]⟩
    simp_all
  simp [pop_next_job, hsel]

lemma popMany_countZero (ts : List Nat) (s : Store) (h : countQueued s = 0) :
    popMany ts s = (List.replicate ts.length none, s) := by
  induction ts with
  | nil => rfl
  | cons t ts ih =>
    simp [popMany, pop_of_countQueued_zero s t h, ih, List.replicate_succ]

lemma countSome_replicate_none (n : Nat) :
    countSome (List.replicate n (none : Option Job)) = 0 := by
  simp [countSome, List.filter_replicate]

lemma findPut_pos (k v : String) : ∀ (t : List (String × String)),
    t.any (fun kv => kv.1 == k) = true →
    (t.map (fun kv => if kv.1 == k then (k, v) else kv)).find?
      (fun kv => kv.1 == k) = some (k, v) := by
  intro t
  induction t with
  | nil => intro h; simp at h
  | cons a rest ih =>
    intro h
    by_cases ha : a.1 = k
    · have hga : (if a.1 == k then (k, v) else a) = (k, v) := by simp [ha]
      rw [List.map_cons, hga, List.find?_cons_of_pos _ (by simp)]
    · have hga : (if a.1 == k then (k, v) else a) = a := by simp [ha]
      have h' : rest.any (fun kv => kv.1 == k) = true := by
        rw [List.any_cons] at h
        rcases Bool.or_eq_true_iff.mp h with hh | hh
        · exact absurd (by simpa using hh) ha
        · exact hh
      rw [List.map_cons, hga, List.find?_cons_of_neg _ (by simp [ha]), ih h']

lemma findApp_none (k v : String) : ∀ (t : List (String × String)),
    t.any (fun kv => kv.1 == k) = false →
    (t ++ [(k, v)]).find? (fun kv => kv.1 == k) = some (k, v) := by
  intro t
  induction t with
  | nil =>
    intro _
    rw [List.nil_append, List.find?_cons_of_pos _ (by simp)]
  | cons a rest ih =>
    intro h
    rw [List.any_cons, Bool.or_eq_false_iff] at h
    rw [List.cons_append, List.find?_cons_of_neg _ (by simp [h.1]), ih h.2]

/-- `INSERT OR REPLACE` followed by a read of the same key returns the
written value. -/
lemma settingsGet_put (kvs : List (String × String)) (k v : String) :
    settingsGet (settingsPut kvs k v) k = some v := by
  unfold settingsPut settingsGet
  by_cases h : kvs.any (fun kv => kv.1 == k)
  · rw [if_pos h, findPut_pos k v kvs h]
    rfl
  · rw [if_neg h, findApp_none k v kvs (Bool.eq_false_iff.mpr h)]
    rfl

/-! ### Claims -/

/-- C10: a store whose `queue_settings` table has no `'paused'` row reads
unpaused; after `set_queue_paused b` the flag reads back exactly `b`; any
stored string other than `"true"` reads unpaused; and no operation other
than `set_queue_paused` changes the settings table (so a fresh queue on
which `set_queue_paused` was never called stays unpaused). -/
theorem paused_flag_spec :
    (∀ s : Store, settingsGet s.settings "paused" = none → is_queue_paused s = false)
    ∧ (∀ (s : Store) (b : Bool), is_queue_paused (set_queue_paused s b) = b)
    ∧ (∀ (s : Store) (v : String), settingsGet s.settings "paused" = some v →
        v ≠ "true" → is_queue_paused s = false)
    ∧ (∀ (s : Store) (op : StoreOp), (∀ b, op ≠ StoreOp.setPaused b) →
        is_queue_paused (applyOp s op) = is_queue_paused s) := by
  refine ⟨?_, ?_, ?_, ?_⟩
  · intro s h
    simp [is_queue_paused, h]
  · intro s b
    have := settingsGet_put s.settings "paused" (if b then "true" else "false")
    cases b <;> simp_all [is_queue_paused, set_queue_paused]
  · intro s v h hv
    simp [is_queue_paused, h, hv]
  · intro s op h
    unfold is_queue_paused
    rw [applyOp_settings s op h]

/-- C10 witness: on the fresh store the flag reads false; writing
true/false reads back; a stored value `"True"` is not the exact string
`"true"` and reads unpaused; an enqueue does not change the flag. -/
theorem paused_flag_spec_witness :
    is_queue_paused initStore = false
    ∧ is_queue_paused (set_queue_paused initStore true) = true
    ∧ is_queue_paused (set_queue_paused (set_queue_paused initStore true) false) = false
    ∧ is_queue_paused { initStore with settings := [("paused", "True")] } = false
    ∧ is_queue_paused (applyOp (set_queue_paused initStore true)
        (StoreOp.enqueue "p" none 3)) = true := by
  refine ⟨?_, ?_, ?_, ?_, ?_⟩
  · exact paused_flag_spec.1 initStore (by decide)
  · exact paused_flag_spec.2.1 initStore true
  · exact paused_flag_spec.2.1 (set_queue_paused initStore true) false
  · exact paused_flag_spec.2.2.1 { initStore with settings := [("paused", "True")] }
      "True" (by decide) (by decide)
  · rw [paused_flag_spec.2.2.2 (set_queue_paused initStore true)
      (StoreOp.enqueue "p" none 3) (by intro b h; exact StoreOp.noConfusion h)]
    exact paused_flag_spec.2.1 initStore true

/-- C8: `complete_job` is an unconditional overwrite, so a second call
with the same result leaves the row in the same terminal state as one
call: two calls equal one call performed at the second call's clock
reading (literally idempotent at equal readings), the row's status and
result after two calls equal those after one, and `complete_job` on an
id that matches no row is a no-op. -/
theorem complete_job_idempotent :
    (∀ (s : Store) (jobId : Nat) (r : String) (t1 t2 : Nat),
       complete_job (complete_job s jobId r t1) jobId r t2 = complete_job s jobId r t2)
    ∧ (∀ (s : Store) (jobId : Nat) (r : String) (t : Nat),
       complete_job (complete_job s jobId r t) jobId r t = complete_job s jobId r t)
    ∧ (∀ (s : Store) (jobId : Nat) (r : String) (t1 t2 : Nat),
       (get_job (complete_job (complete_job s jobId r t1) jobId r t2) jobId).map
           (fun j => (j.status, j.result))
         = (get_job (complete_job s jobId r t1) jobId).map
           (fun j => (j.status, j.result)))
    ∧ (∀ (s : Store) (jobId : Nat) (r : String) (t : Nat),
       (∀ j ∈ s.jobs, j.id ≠ jobId) → complete_job s jobId r t = s) := by
  have habs : ∀ (s : Store) (jobId : Nat) (r : String) (t1 t2 : Nat),
      complete_job (complete_job s jobId r t1) jobId r t2 = complete_job s jobId r t2 := by
    intro s jobId r t1 t2
    simp only [complete_job]
    congr 1
    rw [List.map_map]
    apply List.map_congr_left
    intro x _
    by_cases hx : x.id = jobId <;> simp [hx]
  have hget : ∀ (s : Store) (jobId : Nat) (r : String) (t : Nat),
      get_job (complete_job s jobId r t) jobId =
        (s.jobs.find? (fun j => j.id == jobId)).map (fun j =>
          { j with status := Status.done, finishedAt := some t,
                   result := some (JobResult.success r) }) := by
    intro s jobId r t
    have hcomm := find?_map_of_id s.jobs
      (fun r0 => if r0.id == jobId then
        { r0 with status := Status.done, finishedAt := some t,
                  result := some (JobResult.success r) } else r0)
      (fun r0 => by dsimp only; split <;> rfl) jobId
    unfold get_job complete_job
    dsimp only
    rw [hcomm]
    cases hf : s.jobs.find? (fun j => j.id == jobId) with
    | none => rfl
    | some a =>
      have ha := List.find?_some hf
      have ha2 : (a.id == jobId) = true := ha
      simp [ha2]
      intro hcontra
      exact absurd (by simpa using ha2) hcontra
  refine ⟨habs, fun s jobId r t => habs s jobId r t t, ?_, ?_⟩
  · intro s jobId r t1 t2
    rw [habs s jobId r t1 t2, hget, hget]
    cases s.jobs.find? (fun j => j.id == jobId) <;> rfl
  · intro s jobId r t h
    unfold complete_job
    have : s.jobs.map (fun r0 =>
        if r0.id == jobId then
          { r0 with status := Status.done, finishedAt := some t,
                    result := some (JobResult.success r) }
        else r0) = s.jobs := by
      have heach : ∀ x ∈ s.jobs, (if x.id == jobId then
          { x with status := Status.done, finishedAt := some t,
                   result := some (JobResult.success r) }
          else x) = id x := by
        intro x hx
        simp [h x hx]
      exact (List.map_congr_left heach).trans (List.map_id s.jobs)
    rw [this]

/-- C8 witness: completing job 1 of a concrete store twice (at clock
readings 5 then 9) equals completing it once at 9; the status/result
pair after two calls equals the pair after one; and completing the
unknown id 7 changes nothing. -/
theorem complete_job_idempotent_witness :
    complete_job (complete_job { initStore with
        jobs := [mkJob 1 Status.running 0 0], nextId := 2 } 1 "r" 5) 1 "r" 9
      = complete_job { initStore with
        jobs := [mkJob 1 Status.running 0 0], nextId := 2 } 1 "r" 9
    ∧ (get_job (complete_job (complete_job { initStore with
        jobs := [mkJob 1 Status.running 0 0], nextId := 2 } 1 "r" 5) 1 "r" 9) 1).map
        (fun j => (j.status, j.result))
      = (get_job (complete_job { initStore with
        jobs := [mkJob 1 Status.running 0 0], nextId := 2 } 1 "r" 5) 1).map
        (fun j => (j.status, j.result))
    ∧ complete_job { initStore with
        jobs := [mkJob 1 Status.running 0 0], nextId := 2 } 7 "r" 5
      = { initStore with jobs := [mkJob 1 Status.running 0 0], nextId := 2 } := by
  refine ⟨?_, ?_, ?_⟩
  · exact complete_job_idempotent.1 _ 1 "r" 5 9
  · exact complete_job_idempotent.2.2.1 _ 1 "r" 5 9
  · exact complete_job_idempotent.2.2.2 _ 7 "r" 5 (by decide)


/-- Concrete store for the orphan-recovery example: two running rows
(retry counts 0 and 3) and one done row. -/
def orphanExampleStore : Store :=
  { jobs := [mkJob 1 Status.running 0 0, mkJob 2 Status.running 1 3,
             mkJob 3 Status.done 2 0]
    nextId := 4
    settings := [] }

/-- C3: `reset_orphaned_jobs` returns the number of rows that were in
status running; every running row has its retry_count incremented and
becomes queued (with `started_at` cleared and a retry note) when its
prior retry_count was at most 2, or failed (with `finished_at` and an
explanatory error result) when its prior retry_count was 3 or more;
rows not in status running are untouched. -/
theorem reset_orphaned_jobs_spec (s : Store) (now : Nat) (i : Nat)
    (hi : i < s.jobs.length)
    (hi2 : i < (reset_orphaned_jobs s now).2.jobs.length) :
    ((reset_orphaned_jobs s now).1 =
      (s.jobs.filter (fun r => r.status == Status.running)).length)
    ∧ (reset_orphaned_jobs s now).2.nextId = s.nextId
    ∧ (reset_orphaned_jobs s now).2.settings = s.settings
    ∧ (reset_orphaned_jobs s now).2.jobs.length = s.jobs.length
    ∧ ((s.jobs.get ⟨i, hi⟩).status ≠ Status.running →
        (reset_orphaned_jobs s now).2.jobs.get ⟨i, hi2⟩ = s.jobs.get ⟨i, hi⟩)
    ∧ ((s.jobs.get ⟨i, hi⟩).status = Status.running →
        ((reset_orphaned_jobs s now).2.jobs.get ⟨i, hi2⟩).id = (s.jobs.get ⟨i, hi⟩).id
        ∧ ((reset_orphaned_jobs s now).2.jobs.get ⟨i, hi2⟩).retryCount
            = (s.jobs.get ⟨i, hi⟩).retryCount + 1
        ∧ ((s.jobs.get ⟨i, hi⟩).retryCount ≤ 2 →
            ((reset_orphaned_jobs s now).2.jobs.get ⟨i, hi2⟩).status = Status.queued
            ∧ ((reset_orphaned_jobs s now).2.jobs.get ⟨i, hi2⟩).startedAt = none
            ∧ ((reset_orphaned_jobs s now).2.jobs.get ⟨i, hi2⟩).progress
                = some (retryNote ((s.jobs.get ⟨i, hi⟩).retryCount + 1)))
        ∧ (3 ≤ (s.jobs.get ⟨i, hi⟩).retryCount →
            ((reset_orphaned_jobs s now).2.jobs.get ⟨i, hi2⟩).status = Status.failed
            ∧ ((reset_orphaned_jobs s now).2.jobs.get ⟨i, hi2⟩).finishedAt = some now
            ∧ ((reset_orphaned_jobs s now).2.jobs.get ⟨i, hi2⟩).result
                = some (JobResult.error
                    (orphanError ((s.jobs.get ⟨i, hi⟩).retryCount + 1))))) := by
  have hget : (reset_orphaned_jobs s now).2.jobs.get ⟨i, hi2⟩
      = resetOrphanRow now (s.jobs.get ⟨i, hi⟩) :=
    get_map_job s.jobs (resetOrphanRow now) i hi hi2
  refine ⟨rfl, rfl, rfl, by simp [reset_orphaned_jobs], ?_, ?_⟩
  · intro hnr
    rw [hget, resetOrphanRow_not_running now _ hnr]
  · intro hrun
    rw [hget]
    unfold resetOrphanRow
    rw [if_pos hrun]
    dsimp only
    by_cases hrc : (s.jobs.get ⟨i, hi⟩).retryCount + 1 > 3
    · rw [if_pos hrc]
      refine ⟨rfl, rfl, ?_, ?_⟩
      · intro hle
        omega
      · intro _
        exact ⟨rfl, rfl, rfl⟩
    · rw [if_neg hrc]
      refine ⟨rfl, rfl, ?_, ?_⟩
      · intro _
        exact ⟨rfl, rfl, rfl⟩
      · intro hge
        omega

/-- C3 witness: on the concrete store, recovery at clock 9 reports 2
orphans; the running row with retry_count 0 becomes queued with
retry_count 1 and `started_at` cleared; the running row with
retry_count 3 becomes failed with `finished_at = 9`; the done row is
untouched. -/
theorem reset_orphaned_jobs_spec_witness :
    (reset_orphaned_jobs orphanExampleStore 9).1 = 2
    ∧ ((reset_orphaned_jobs orphanExampleStore 9).2.jobs.get ⟨0, by decide⟩).status
        = Status.queued
    ∧ ((reset_orphaned_jobs orphanExampleStore 9).2.jobs.get ⟨0, by decide⟩).retryCount = 1
    ∧ ((reset_orphaned_jobs orphanExampleStore 9).2.jobs.get ⟨0, by decide⟩).startedAt = none
    ∧ ((reset_orphaned_jobs orphanExampleStore 9).2.jobs.get ⟨1, by decide⟩).status
        = Status.failed
    ∧ ((reset_orphaned_jobs orphanExampleStore 9).2.jobs.get ⟨1, by decide⟩).finishedAt
        = some 9
    ∧ (reset_orphaned_jobs orphanExampleStore 9).2.jobs.get ⟨2, by decide⟩
        = mkJob 3 Status.done 2 0 := by
  have h0 := reset_orphaned_jobs_spec orphanExampleStore 9 0 (by decide) (by decide)
  have h1 := reset_orphaned_jobs_spec orphanExampleStore 9 1 (by decide) (by decide)
  have h2 := reset_orphaned_jobs_spec orphanExampleStore 9 2 (by decide) (by decide)
  have hr0 := h0.2.2.2.2.2 (by decide)
  have hr1 := h1.2.2.2.2.2 (by decide)
  refine ⟨h0.1, (hr0.2.2.1 (by decide)).1, hr0.2.1, (hr0.2.2.1 (by decide)).2.1,
    (hr1.2.2.2 (by decide)).1, (hr1.2.2.2 (by decide)).2.1, h2.2.2.2.2.1 (by decide)⟩

/-- C7: `enqueue_job` appends one new row with status queued,
`created_at = now`, retry_count 0 and the nullable columns NULL, and
returns that row's id; the returned id differs from every existing row
id (ids are never reused), and any later enqueue — after any sequence
of further store operations — returns a strictly larger id. -/
theorem enqueue_job_spec (s : Store) (p : String) (pjp : Option String) (now : Nat)
    (hwf : s.wf) :
    (∃ j : Job, (enqueue_job s p pjp now).2.jobs = s.jobs ++ [j]
       ∧ j.id = (enqueue_job s p pjp now).1
       ∧ j.status = Status.queued ∧ j.createdAt = now ∧ j.retryCount = 0
       ∧ j.payload = p ∧ j.startedAt = none ∧ j.finishedAt = none
       ∧ j.result = none)
    ∧ (∀ j ∈ s.jobs, j.id ≠ (enqueue_job s p pjp now).1)
    ∧ (∀ (ops : List StoreOp) (p2 : String) (pjp2 : Option String) (now2 : Nat),
        (enqueue_job s p pjp now).1 <
          (enqueue_job (opsApply ops (enqueue_job s p pjp now).2) p2 pjp2 now2).1) := by
  refine ⟨⟨_, rfl, rfl, rfl, rfl, rfl, rfl, rfl, rfl, rfl⟩, ?_, ?_⟩
  · intro j hj
    exact ne_of_lt (hwf j hj)
  · intro ops p2 pjp2 now2
    have h2 : (enqueue_job s p pjp now).2.nextId = s.nextId + 1 := rfl
    have h3 := opsApply_nextId ops (enqueue_job s p pjp now).2
    have h4 : (enqueue_job (opsApply ops (enqueue_job s p pjp now).2) p2 pjp2 now2).1
        = (opsApply ops (enqueue_job s p pjp now).2).nextId := rfl
    have h1 : (enqueue_job s p pjp now).1 = s.nextId := rfl
    omega

/-- C7 witness: on the fresh store, an enqueue returns an id unused by
any row, and a second enqueue after a claim and a pause toggle returns
a strictly larger id. -/
theorem enqueue_job_spec_witness :
    (∀ j ∈ initStore.jobs, j.id ≠ (enqueue_job initStore "a" none 1).1)
    ∧ (enqueue_job initStore "a" none 1).1 <
        (enqueue_job (opsApply [StoreOp.pop 2, StoreOp.setPaused true]
          (enqueue_job initStore "a" none 1).2) "b" none 3).1 := by
  have h := enqueue_job_spec initStore "a" none 1 (by decide)
  exact ⟨h.2.1, h.2.2 [StoreOp.pop 2, StoreOp.setPaused true] "b" none 3⟩


/-- With unique ids, `get_job` of a member id returns that member. -/
lemma get_job_of_mem (s : Store) (j : Job)
    (hp : s.jobs.Pairwise (fun x y => x.id < y.id)) (hj : j ∈ s.jobs) :
    get_job s j.id = some j := by
  unfold get_job
  cases hf : s.jobs.find? (fun r => r.id == j.id) with
  | none =>
    have hnone := List.find?_eq_none.mp hf j hj
    simp at hnone
  | some row =>
    have hpred := List.find?_some hf
    have hpred2 : (row.id == j.id) = true := hpred
    have hmem := List.mem_of_find?_eq_some hf
    have hid : row.id = j.id := by simpa using hpred2
    rw [id_inj_of_pairwise s.jobs hp row hmem j hj hid]

/-- C4: `cancel_job` returns true exactly when a row with that id exists
with status queued, in which case that row's status becomes cancelled
(all other columns kept) and every other row is untouched; whenever it
returns false the whole store is unchanged. -/
theorem cancel_job_spec (s : Store) (jobId : Nat)
    (hp : s.jobs.Pairwise (fun x y => x.id < y.id)) :
    ((cancel_job s jobId).1 = true ↔
        ∃ j ∈ s.jobs, j.id = jobId ∧ j.status = Status.queued)
    ∧ ((cancel_job s jobId).1 = false → (cancel_job s jobId).2 = s)
    ∧ (∀ j : Job, get_job s jobId = some j → (cancel_job s jobId).1 = true →
        get_job (cancel_job s jobId).2 jobId = some { j with status := Status.cancelled })
    ∧ (∀ (i : Nat) (hi : i < s.jobs.length) (hi2 : i < (cancel_job s jobId).2.jobs.length),
        (s.jobs.get ⟨i, hi⟩).id ≠ jobId →
        (cancel_job s jobId).2.jobs.get ⟨i, hi2⟩ = s.jobs.get ⟨i, hi⟩) := by
  have hgj : get_job s jobId = s.jobs.find? (fun r => r.id == jobId) := rfl
  cases hg : s.jobs.find? (fun r => r.id == jobId) with
  | none =>
    have hc : cancel_job s jobId = (false, s) := by
      unfold cancel_job get_job
      rw [hg]
    refine ⟨?_, ?_, ?_, ?_⟩
    · rw [hc]
      simp only [Bool.false_eq_true, false_iff]
      rintro ⟨j, hj, hid, _⟩
      have hnone := List.find?_eq_none.mp hg j hj
      simp [hid] at hnone
    · intro _
      rw [hc]
    · intro j hj
      rw [hgj, hg] at hj
      exact absurd hj (by simp)
    · intro i hi hi2 _
      exact get_of_store_eq (cancel_job s jobId).2 s (congrArg Prod.snd hc) i hi2 hi
  | some row =>
    by_cases hq : row.status = Status.queued
    · have hc : cancel_job s jobId = (true,
          { s with jobs := s.jobs.map (fun r =>
              if r.id == jobId then { r with status := Status.cancelled } else r) }) := by
        unfold cancel_job get_job
        rw [hg]
        dsimp only
        rw [if_neg (by simp [hq])]
      have hpred0 := List.find?_some hg
      have hpred : (row.id == jobId) = true := hpred0
      have hrid : row.id = jobId := by simpa using hpred
      refine ⟨?_, ?_, ?_, ?_⟩
      · rw [hc]
        simp only [true_iff]
        exact ⟨row, List.mem_of_find?_eq_some hg, hrid, hq⟩
      · intro hfalse
        rw [hc] at hfalse
        simp at hfalse
      · intro j hj _
        rw [hgj, hg] at hj
        obtain rfl : row = j := by injection hj
        rw [hc]
        unfold get_job
        dsimp only
        rw [find?_map_of_id s.jobs
          (fun r => if r.id == jobId then { r with status := Status.cancelled } else r)
          (fun r => by dsimp only; split <;> rfl) jobId, hg]
        simp [hpred]
        intro hcontra
        exact absurd hrid hcontra
      · intro i hi hi2 hne
        have hi3 : i < (s.jobs.map (fun r =>
            if r.id == jobId then { r with status := Status.cancelled } else r)).length := by
          simpa using hi
        have hgm := get_map_job s.jobs
          (fun r => if r.id == jobId then { r with status := Status.cancelled } else r)
          i hi hi3
        have hcast : (cancel_job s jobId).2.jobs.get ⟨i, hi2⟩
            = (s.jobs.map (fun r =>
                if r.id == jobId then { r with status := Status.cancelled } else r)).get
                ⟨i, hi3⟩ :=
          get_of_store_eq (cancel_job s jobId).2
            { s with jobs := s.jobs.map (fun r =>
                if r.id == jobId then { r with status := Status.cancelled } else r) }
            (congrArg Prod.snd hc) i hi2 hi3
        rw [hcast, hgm, if_neg (by simpa using hne)]
    · have hc : cancel_job s jobId = (false, s) := by
        unfold cancel_job get_job
        rw [hg]
        dsimp only
        rw [if_pos hq]
      have hpred0 := List.find?_some hg
      have hpred : (row.id == jobId) = true := hpred0
      have hrid : row.id = jobId := by simpa using hpred
      refine ⟨?_, ?_, ?_, ?_⟩
      · rw [hc]
        simp only [Bool.false_eq_true, false_iff]
        rintro ⟨j, hj, hid, hjq⟩
        have hjr : row = j := id_inj_of_pairwise s.jobs hp row
          (List.mem_of_find?_eq_some hg) j hj (by rw [hrid, hid])
        rw [hjr] at hq
        exact hq hjq
      · intro _
        rw [hc]
      · intro j hj htrue
        rw [hc] at htrue
        simp at htrue
      · intro i hi hi2 _
        exact get_of_store_eq (cancel_job s jobId).2 s (congrArg Prod.snd hc) i hi2 hi

/-- Concrete store for the cancel/pop examples: a done row, then two
queued rows enqueued at the same instant, then a running row. -/
def mixedExampleStore : Store :=
  { jobs := [mkJob 1 Status.done 0 0, mkJob 2 Status.queued 5 0,
             mkJob 3 Status.queued 5 0, mkJob 4 Status.running 1 0]
    nextId := 5
    settings := [] }

/-- C4 witness: cancelling queued job 2 of the concrete store succeeds
and sets exactly that row to cancelled; cancelling running job 4, done
job 1 or the unknown id 9 returns false and leaves the store unchanged. -/
theorem cancel_job_spec_witness :
    (cancel_job mixedExampleStore 2).1 = true
    ∧ get_job (cancel_job mixedExampleStore 2).2 2
        = some { mkJob 2 Status.queued 5 0 with status := Status.cancelled }
    ∧ (cancel_job mixedExampleStore 2).2.jobs.get ⟨0, by decide⟩
        = mkJob 1 Status.done 0 0
    ∧ (cancel_job mixedExampleStore 4).2 = mixedExampleStore
    ∧ (cancel_job mixedExampleStore 1).2 = mixedExampleStore
    ∧ (cancel_job mixedExampleStore 9).2 = mixedExampleStore := by
  have h2 := cancel_job_spec mixedExampleStore 2 (by decide)
  have h4 := cancel_job_spec mixedExampleStore 4 (by decide)
  have h1 := cancel_job_spec mixedExampleStore 1 (by decide)
  have h9 := cancel_job_spec mixedExampleStore 9 (by decide)
  refine ⟨?_, ?_, ?_, ?_, ?_, ?_⟩
  · exact h2.1.mpr ⟨mkJob 2 Status.queued 5 0, by decide, by decide, by decide⟩
  · exact h2.2.2.1 (mkJob 2 Status.queued 5 0) (by decide)
      (h2.1.mpr ⟨mkJob 2 Status.queued 5 0, by decide, by decide, by decide⟩)
  · exact h2.2.2.2 0 (by decide) (by decide) (by decide)
  · exact h4.2.1 (by decide)
  · exact h1.2.1 (by decide)
  · exact h9.2.1 (by decide)


/-- C2: `pop_next_job` returns `None` and leaves the store unchanged
exactly when no row is queued; otherwise it returns the pre-transition
contents of the oldest queued row (status still reading queued,
`started_at` still unset), transitions exactly that row to running with
`started_at = now`, and leaves every other row, the id counter and the
settings unchanged.  The selected row has minimal `created_at` among
queued rows, ties broken by insertion order, i.e. by id. -/
theorem pop_next_job_spec (s : Store) (now : Nat)
    (hp : s.jobs.Pairwise (fun x y => x.id < y.id))
    (hqs : ∀ j ∈ s.jobs, j.status = Status.queued → j.startedAt = none) :
    (pop_next_job s now = (none, s) ↔ ∀ j ∈ s.jobs, j.status ≠ Status.queued)
    ∧ (∀ (j : Job) (s2 : Store), pop_next_job s now = (some j, s2) →
        j ∈ s.jobs ∧ j.status = Status.queued ∧ j.startedAt = none
        ∧ (∀ r ∈ s.jobs, r.status = Status.queued → j.createdAt ≤ r.createdAt)
        ∧ (∀ r ∈ s.jobs, r.status = Status.queued → r.id ≠ j.id →
            j.createdAt < r.createdAt ∨ (j.createdAt = r.createdAt ∧ j.id < r.id))
        ∧ s2.nextId = s.nextId ∧ s2.settings = s.settings
        ∧ s2.jobs.length = s.jobs.length
        ∧ (∀ (i : Nat) (hi : i < s.jobs.length) (hi2 : i < s2.jobs.length),
            ((s.jobs.get ⟨i, hi⟩).id ≠ j.id →
              s2.jobs.get ⟨i, hi2⟩ = s.jobs.get ⟨i, hi⟩)
            ∧ ((s.jobs.get ⟨i, hi⟩).id = j.id →
              s2.jobs.get ⟨i, hi2⟩ = { s.jobs.get ⟨i, hi⟩ with
                status := Status.running, startedAt := some now }))
        ∧ get_job s2 j.id
            = some { j with status := Status.running, startedAt := some now }) := by
  constructor
  · constructor
    · intro h
      cases hsel : selectOldestQueued s.jobs with
      | none => exact (selectOldestQueued_eq_none s.jobs).mp hsel
      | some j0 =>
        unfold pop_next_job at h
        rw [hsel] at h
        dsimp only at h
        injection h with h1 _
        exact absurd h1 (by simp)
    · intro h
      have hsel : selectOldestQueued s.jobs = none :=
        (selectOldestQueued_eq_none s.jobs).mpr h
      unfold pop_next_job
      rw [hsel]
  · intro j s2 h
    cases hsel : selectOldestQueued s.jobs with
    | none =>
      unfold pop_next_job at h
      rw [hsel] at h
      dsimp only at h
      injection h with h1 _
      exact absurd h1 (by simp)
    | some j0 =>
      unfold pop_next_job at h
      rw [hsel] at h
      dsimp only at h
      injection h with h1 h2
      obtain rfl : j = j0 := by
        have hh : j0 = j := by injection h1
        exact hh.symm
      obtain ⟨hmem, hq⟩ := selectOldestQueued_mem s.jobs j hsel
      subst h2
      refine ⟨hmem, hq, hqs j hmem hq, selectOldestQueued_min s.jobs j hsel,
        selectOldestQueued_tiebreak s.jobs hp j hsel, rfl, rfl, by simp, ?_, ?_⟩
      · intro i hi hi2
        have hi3 : i < (s.jobs.map (fun r =>
            if r.id == j.id then { r with status := Status.running, startedAt := some now }
            else r)).length := by simpa using hi
        have hgm := get_map_job s.jobs
          (fun r => if r.id == j.id then
            { r with status := Status.running, startedAt := some now } else r)
          i hi hi3
        constructor
        · intro hne
          have hcast : ({ s with jobs := s.jobs.map (fun r =>
              if r.id == j.id then { r with status := Status.running, startedAt := some now }
              else r) } : Store).jobs.get ⟨i, hi2⟩
              = (s.jobs.map (fun r => if r.id == j.id then
                  { r with status := Status.running, startedAt := some now } else r)).get
                  ⟨i, hi3⟩ := rfl
          rw [hcast, hgm, if_neg (by simpa using hne)]
        · intro heq
          have hcast : ({ s with jobs := s.jobs.map (fun r =>
              if r.id == j.id then { r with status := Status.running, startedAt := some now }
              else r) } : Store).jobs.get ⟨i, hi2⟩
              = (s.jobs.map (fun r => if r.id == j.id then
                  { r with status := Status.running, startedAt := some now } else r)).get
                  ⟨i, hi3⟩ := rfl
          rw [hcast, hgm, if_pos (by simpa using heq)]
      · have hfind : s.jobs.find? (fun r => r.id == j.id) = some j :=
          get_job_of_mem s j hp hmem
        have hcomm := find?_map_of_id s.jobs
          (fun r => if r.id == j.id then
            { r with status := Status.running, startedAt := some now } else r)
          (fun r => by dsimp only; split <;> rfl) j.id
        unfold get_job
        dsimp only
        rw [hcomm, hfind]
        simp

/-- C2 witness: on the empty store a pop returns `None` and changes
nothing; on the concrete mixed store (two queued rows sharing
`created_at = 5`, ids 2 and 3) a pop at clock 9 returns the
pre-transition row 2 — queued, `started_at` unset — and afterwards row 2
reads running with `started_at = 9`. -/
theorem pop_next_job_spec_witness :
    pop_next_job initStore 3 = (none, initStore)
    ∧ (mkJob 2 Status.queued 5 0 ∈ mixedExampleStore.jobs
        ∧ (mkJob 2 Status.queued 5 0).status = Status.queued
        ∧ (mkJob 2 Status.queued 5 0).startedAt = none)
    ∧ get_job (pop_next_job mixedExampleStore 9).2 2
        = some { mkJob 2 Status.queued 5 0 with
            status := Status.running, startedAt := some 9 } := by
  have h1 := (pop_next_job_spec initStore 3 (by decide) (by decide)).1.mpr (by decide)
  have h2 := (pop_next_job_spec mixedExampleStore 9 (by decide) (by decide)).2
    (mkJob 2 Status.queued 5 0) (pop_next_job mixedExampleStore 9).2 (by rfl)
  exact ⟨h1, ⟨h2.1, h2.2.1, h2.2.2.1⟩, h2.2.2.2.2.2.2.2.2.2⟩


lemma isTerminal_ne {st : Status} (h : st.isTerminal = true) :
    st ≠ Status.queued ∧ st ≠ Status.running := by
  cases st <;> simp_all [Status.isTerminal]

/-- Concrete store with a single cancelled (terminal) row. -/
def cancelledExampleStore : Store :=
  { jobs := [mkJob 1 Status.cancelled 0 0], nextId := 2, settings := [] }

/-- C1 counterexample: `complete_job` (and likewise `fail_job`) is an
unconditional UPDATE, so it moves a cancelled — terminal — row to done
(resp. failed), contradicting the claim that no queue-store operation
ever changes a terminal job's status. -/
theorem terminal_overwrite_counterexample :
    (get_job cancelledExampleStore 1).map Job.status = some Status.cancelled
    ∧ (get_job (complete_job cancelledExampleStore 1 "r" 5) 1).map Job.status
        = some Status.done
    ∧ (get_job (fail_job cancelledExampleStore 1 "e" 5) 1).map Job.status
        = some Status.failed := by
  refine ⟨rfl, rfl, rfl⟩

/-- C1 (amended): once a row's status is terminal, the operations
`pop_next_job` (claim), `cancel_job`, `update_job_progress` and
`reset_orphaned_jobs` (orphan recovery) never change its status;
`complete_job` and `fail_job`, by contrast, overwrite the targeted
row's status unconditionally — to done resp. failed — whatever its
current status. -/
theorem terminal_status_preservation (s : Store) (i : Nat)
    (hi : i < s.jobs.length)
    (hp : s.jobs.Pairwise (fun x y => x.id < y.id))
    (hterm : (s.jobs.get ⟨i, hi⟩).status.isTerminal = true) :
    (∀ (now : Nat) (hi2 : i < (pop_next_job s now).2.jobs.length),
       ((pop_next_job s now).2.jobs.get ⟨i, hi2⟩).status = (s.jobs.get ⟨i, hi⟩).status)
    ∧ (∀ (jobId : Nat) (hi2 : i < (cancel_job s jobId).2.jobs.length),
       ((cancel_job s jobId).2.jobs.get ⟨i, hi2⟩).status = (s.jobs.get ⟨i, hi⟩).status)
    ∧ (∀ (jobId : Nat) (pd : String)
         (hi2 : i < (update_job_progress s jobId pd).jobs.length),
       ((update_job_progress s jobId pd).jobs.get ⟨i, hi2⟩).status
         = (s.jobs.get ⟨i, hi⟩).status)
    ∧ (∀ (now : Nat) (hi2 : i < (reset_orphaned_jobs s now).2.jobs.length),
       ((reset_orphaned_jobs s now).2.jobs.get ⟨i, hi2⟩).status
         = (s.jobs.get ⟨i, hi⟩).status)
    ∧ (∀ (r : String) (now : Nat)
         (hi2 : i < (complete_job s (s.jobs.get ⟨i, hi⟩).id r now).jobs.length),
       ((complete_job s (s.jobs.get ⟨i, hi⟩).id r now).jobs.get ⟨i, hi2⟩).status
         = Status.done)
    ∧ (∀ (e : String) (now : Nat)
         (hi2 : i < (fail_job s (s.jobs.get ⟨i, hi⟩).id e now).jobs.length),
       ((fail_job s (s.jobs.get ⟨i, hi⟩).id e now).jobs.get ⟨i, hi2⟩).status
         = Status.failed) := by
  have hmemi : s.jobs.get ⟨i, hi⟩ ∈ s.jobs := List.get_mem s.jobs i hi
  refine ⟨?_, ?_, ?_, ?_, ?_, ?_⟩
  · intro now hi2
    cases hsel : selectOldestQueued s.jobs with
    | none =>
      have hst : (pop_next_job s now).2 = s := by
        unfold pop_next_job
        rw [hsel]
      rw [get_of_store_eq (pop_next_job s now).2 s hst i hi2 hi]
    | some j0 =>
      obtain ⟨hmem0, hq0⟩ := selectOldestQueued_mem s.jobs j0 hsel
      have hne : (s.jobs.get ⟨i, hi⟩).id ≠ j0.id := by
        intro heq
        have hij := id_inj_of_pairwise s.jobs hp _ hmemi j0 hmem0 heq
        rw [hij, hq0] at hterm
        simp [Status.isTerminal] at hterm
      have hst : (pop_next_job s now).2 = { s with jobs := s.jobs.map (fun r =>
          if r.id == j0.id then { r with status := Status.running, startedAt := some now }
          else r) } := by
        unfold pop_next_job
        rw [hsel]
      have hi3 : i < (s.jobs.map (fun r =>
          if r.id == j0.id then { r with status := Status.running, startedAt := some now }
          else r)).length := by simpa using hi
      rw [get_of_store_eq (pop_next_job s now).2 _ hst i hi2 hi3,
        get_map_job s.jobs _ i hi hi3, if_neg (by simpa using hne)]
  · intro jobId hi2
    cases hg : s.jobs.find? (fun r => r.id == jobId) with
    | none =>
      have hst : (cancel_job s jobId).2 = s := by
        unfold cancel_job get_job
        rw [hg]
      rw [get_of_store_eq (cancel_job s jobId).2 s hst i hi2 hi]
    | some row =>
      by_cases hq : row.status = Status.queued
      · have hne : (s.jobs.get ⟨i, hi⟩).id ≠ jobId := by
          intro heq
          have hpred0 := List.find?_some hg
          have hpred : (row.id == jobId) = true := hpred0
          have hrid : row.id = jobId := by simpa using hpred
          have hij := id_inj_of_pairwise s.jobs hp _ hmemi row
            (List.mem_of_find?_eq_some hg) (by rw [heq, hrid])
          rw [hij, hq] at hterm
          simp [Status.isTerminal] at hterm
        have hst : (cancel_job s jobId).2 = { s with jobs := s.jobs.map (fun r =>
            if r.id == jobId then { r with status := Status.cancelled } else r) } := by
          unfold cancel_job get_job
          rw [hg]
          dsimp only
          rw [if_neg (by simp [hq])]
        have hi3 : i < (s.jobs.map (fun r =>
            if r.id == jobId then { r with status := Status.cancelled } else r)).length := by
          simpa using hi
        rw [get_of_store_eq (cancel_job s jobId).2 _ hst i hi2 hi3,
          get_map_job s.jobs _ i hi hi3, if_neg (by simpa using hne)]
      · have hst : (cancel_job s jobId).2 = s := by
          unfold cancel_job get_job
          rw [hg]
          dsimp only
          rw [if_pos hq]
        rw [get_of_store_eq (cancel_job s jobId).2 s hst i hi2 hi]
  · intro jobId pd hi2
    have hi3 : i < (s.jobs.map (fun r =>
        if r.id == jobId then { r with progress := some pd } else r)).length := by
      simpa using hi
    have hst : update_job_progress s jobId pd = { s with jobs := s.jobs.map (fun r =>
        if r.id == jobId then { r with progress := some pd } else r) } := rfl
    rw [get_of_store_eq (update_job_progress s jobId pd) _ hst i hi2 hi3,
      get_map_job s.jobs _ i hi hi3]
    by_cases hc : (s.jobs.get ⟨i, hi⟩).id = jobId
    · rw [if_pos (by simpa using hc)]
    · rw [if_neg (by simpa using hc)]
  · intro now hi2
    have hi3 : i < (s.jobs.map (resetOrphanRow now)).length := by simpa using hi
    have hst : (reset_orphaned_jobs s now).2
        = { s with jobs := s.jobs.map (resetOrphanRow now) } := rfl
    rw [get_of_store_eq (reset_orphaned_jobs s now).2 _ hst i hi2 hi3,
      get_map_job s.jobs _ i hi hi3,
      resetOrphanRow_not_running now _ (isTerminal_ne hterm).2]
  · intro r now hi2
    have hi3 : i < (s.jobs.map (fun r0 =>
        if r0.id == (s.jobs.get ⟨i, hi⟩).id then
          { r0 with status := Status.done, finishedAt := some now,
                    result := some (JobResult.success r) } else r0)).length := by
      simpa using hi
    have hst : complete_job s (s.jobs.get ⟨i, hi⟩).id r now
        = { s with jobs := s.jobs.map (fun r0 =>
            if r0.id == (s.jobs.get ⟨i, hi⟩).id then
              { r0 with status := Status.done, finishedAt := some now,
                        result := some (JobResult.success r) } else r0) } := rfl
    rw [get_of_store_eq (complete_job s (s.jobs.get ⟨i, hi⟩).id r now) _ hst i hi2 hi3,
      get_map_job s.jobs _ i hi hi3, if_pos (by simp)]
  · intro e now hi2
    have hi3 : i < (s.jobs.map (fun r0 =>
        if r0.id == (s.jobs.get ⟨i, hi⟩).id then
          { r0 with status := Status.failed, finishedAt := some now,
                    result := some (JobResult.error e) } else r0)).length := by
      simpa using hi
    have hst : fail_job s (s.jobs.get ⟨i, hi⟩).id e now
        = { s with jobs := s.jobs.map (fun r0 =>
            if r0.id == (s.jobs.get ⟨i, hi⟩).id then
              { r0 with status := Status.failed, finishedAt := some now,
                        result := some (JobResult.error e) } else r0) } := rfl
    rw [get_of_store_eq (fail_job s (s.jobs.get ⟨i, hi⟩).id e now) _ hst i hi2 hi3,
      get_map_job s.jobs _ i hi hi3, if_pos (by simp)]

/-- C1 (amended) witness: on the store holding one cancelled row, a
claim attempt, a cancel, a progress write and an orphan recovery all
leave the row cancelled, while `complete_job` and `fail_job` overwrite
it to done resp. failed. -/
theorem terminal_status_preservation_witness :
    ((pop_next_job cancelledExampleStore 7).2.jobs.get ⟨0, by decide⟩).status
        = (cancelledExampleStore.jobs.get ⟨0, by decide⟩).status
    ∧ ((cancel_job cancelledExampleStore 1).2.jobs.get ⟨0, by decide⟩).status
        = (cancelledExampleStore.jobs.get ⟨0, by decide⟩).status
    ∧ ((update_job_progress cancelledExampleStore 1 "pd").jobs.get ⟨0, by decide⟩).status
        = (cancelledExampleStore.jobs.get ⟨0, by decide⟩).status
    ∧ ((reset_orphaned_jobs cancelledExampleStore 7).2.jobs.get ⟨0, by decide⟩).status
        = (cancelledExampleStore.jobs.get ⟨0, by decide⟩).status
    ∧ ((complete_job cancelledExampleStore
          (cancelledExampleStore.jobs.get ⟨0, by decide⟩).id "r" 7).jobs.get
          ⟨0, by decide⟩).status = Status.done
    ∧ ((fail_job cancelledExampleStore
          (cancelledExampleStore.jobs.get ⟨0, by decide⟩).id "e" 7).jobs.get
          ⟨0, by decide⟩).status = Status.failed := by
  have h := terminal_status_preservation cancelledExampleStore 0 (by decide)
    (by decide) (by decide)
  exact ⟨h.1 7 (by decide), h.2.1 1 (by decide), h.2.2.1 1 "pd" (by decide),
    h.2.2.2.1 7 (by decide), h.2.2.2.2.1 "r" 7 (by decide),
    h.2.2.2.2.2 "e" 7 (by decide)⟩


/-- Concrete store with exactly one queued row (and one done row). -/
def exclusiveExampleStore : Store :=
  { jobs := [mkJob 1 Status.done 0 0, mkJob 2 Status.queued 1 0]
    nextId := 3
    settings := [] }

/-- C9: each `pop_next_job` call is one `BEGIN IMMEDIATE` transaction,
so concurrent claimers serialize into some order of atomic claims; in
any such order over a store holding exactly one queued job, exactly one
caller receives a job and every other caller receives `None` — the job
is never handed to two callers without an intervening requeue. -/
theorem claim_next_exclusive (s : Store) (ts : List Nat)
    (hp : s.jobs.Pairwise (fun x y => x.id < y.id))
    (h1 : countQueued s = 1) (hne : ts ≠ []) :
    countSome (popMany ts s).1 = 1 := by
  cases ts with
  | nil => exact absurd rfl hne
  | cons t rest =>
    obtain ⟨j, hsel⟩ : ∃ j, selectOldestQueued s.jobs = some j := by
      cases hs : selectOldestQueued s.jobs with
      | none =>
        have hall := (selectOldestQueued_eq_none s.jobs).mp hs
        have hzero : countQueued s = 0 := by
          unfold countQueued countQueuedL
          rw [List.length_eq_zero, List.filter_eq_nil_iff]
          intro a ha
          simp [hall a ha]
        omega
      | some j => exact ⟨j, rfl⟩
    obtain ⟨hmem, hq⟩ := selectOldestQueued_mem s.jobs j hsel
    have hpop : pop_next_job s t = (some j, { s with jobs := s.jobs.map (fun r =>
        if r.id == j.id then { r with status := Status.running, startedAt := some t }
        else r) }) := by
      unfold pop_next_job
      rw [hsel]
    have hcount := countQueuedL_map_claim t s.jobs hp j hmem hq
    have h1L : countQueuedL s.jobs = 1 := h1
    have hzero : countQueued { s with jobs := s.jobs.map (fun r =>
        if r.id == j.id then { r with status := Status.running, startedAt := some t }
        else r) } = 0 := by
      unfold countQueued
      dsimp only
      omega
    have hrest := popMany_countZero rest _ hzero
    unfold popMany
    rw [hpop]
    dsimp only
    rw [hrest]
    dsimp only
    simp [countSome, List.filter_cons, List.filter_replicate]

/-- C9 witness: three serialized claimers at clocks 5, 6, 7 against the
store with one queued job — exactly one receives a job. -/
theorem claim_next_exclusive_witness :
    countQueued exclusiveExampleStore = 1
    ∧ countSome (popMany [5, 6, 7] exclusiveExampleStore).1 = 1 := by
  refine ⟨by decide, ?_⟩
  exact claim_next_exclusive exclusiveExampleStore [5, 6, 7] (by decide) (by decide)
    (by decide)


/-- An iteration environment in which every collaborator succeeds and no
concurrent store activity happens. -/
def plainEnv : IterEnv :=
  { parseOk := true
    parseExc := ""
    genRaises := false
    genExc := ""
    images := some ["img1"]
    genError := none
    saveRaises := false
    saveExc := ""
    saved := ["artifact1"]
    latency := 2
    iA := fun s => s
    iB := fun s => s
    iC := fun s => s
    nowPop := 10
    nowComplete := 12
    nowFail := 11 }

/-- A paused store holding one queued job. -/
def pausedQueueStore : Store :=
  { jobs := [mkJob 1 Status.queued 0 0]
    nextId := 2
    settings := [("paused", "true")] }

/-- C5 counterexample: with the persisted paused flag set and one queued
job, one iteration of the **api** worker loop
(`_queue_worker_loop_api`, which never reads the flag) still claims job
1 and even completes it — refuting the claim that every worker-loop
iteration sleeps without claiming while `is_paused()` reads true. -/
theorem worker_pause_gate_counterexample :
    is_queue_paused pausedQueueStore = true
    ∧ (apiWorkerIteration pausedQueueStore plainEnv).claimAttempted = true
    ∧ (apiWorkerIteration pausedQueueStore plainEnv).claimed = some 1
    ∧ (get_job (apiWorkerIteration pausedQueueStore plainEnv).store 1).map Job.status
        = some Status.done := by
  refine ⟨rfl, rfl, rfl, rfl⟩

/-- C5 (amended): the web backend's worker loop (`_queue_worker_loop`)
never claims while the paused flag reads true — the iteration leaves the
store untouched and restarts — whereas the api backend's worker loop
(`_queue_worker_loop_api`) performs no pause check and claims the oldest
queued job regardless of the flag. -/
theorem worker_pause_gate :
    (∀ (s : Store) (env : IterEnv), is_queue_paused s = true →
        (webWorkerIteration s env).store = s
        ∧ (webWorkerIteration s env).claimAttempted = false
        ∧ (webWorkerIteration s env).claimed = none)
    ∧ (∀ (s : Store) (env : IterEnv) (j : Job),
        is_queue_paused s = true → selectOldestQueued s.jobs = some j →
        (apiWorkerIteration s env).claimAttempted = true
        ∧ (apiWorkerIteration s env).claimed = some j.id) := by
  constructor
  · intro s env hpause
    unfold webWorkerIteration
    rw [if_pos hpause]
    exact ⟨rfl, rfl, rfl⟩
  · intro s env j _ hsel
    have hpop : pop_next_job s env.nowPop = (some j, { s with jobs := s.jobs.map (fun r =>
        if r.id == j.id then
          { r with status := Status.running, startedAt := some env.nowPop }
        else r) }) := by
      unfold pop_next_job
      rw [hsel]
    unfold apiWorkerIteration
    rw [hpop]
    dsimp only
    constructor
    · simp only [apply_ite (fun o : IterOut => o.claimAttempted)]
      simp
    · simp only [apply_ite (fun o : IterOut => o.claimed)]
      simp

/-- C5 (amended) witness: on the paused store with one queued job, the
web loop iteration touches nothing and claims nothing, while the api
loop iteration claims job 1. -/
theorem worker_pause_gate_witness :
    ((webWorkerIteration pausedQueueStore plainEnv).store = pausedQueueStore
      ∧ (webWorkerIteration pausedQueueStore plainEnv).claimAttempted = false
      ∧ (webWorkerIteration pausedQueueStore plainEnv).claimed = none)
    ∧ ((apiWorkerIteration pausedQueueStore plainEnv).claimAttempted = true
      ∧ (apiWorkerIteration pausedQueueStore plainEnv).claimed
          = some (mkJob 1 Status.queued 0 0).id) := by
  exact ⟨worker_pause_gate.1 pausedQueueStore plainEnv rfl,
    worker_pause_gate.2 pausedQueueStore plainEnv (mkJob 1 Status.queued 0 0) rfl rfl⟩


/-- C6: in either worker loop, whenever the claimed job's status reads
cancelled at one of the three cancellation checkpoints, the iteration
skips all remaining finalization: `complete_job` is never invoked for
the job, `fail_job` is never invoked (no result is written), the save
collaborator is not invoked when the cancelled read happened at a
pre-save checkpoint (A or B), and the job's status in the final store
still reads cancelled — a cancelled job never transitions to done. -/
theorem checkpoint_cancel_spec (s : Store) (env : IterEnv) (jid : Nat) :
    ((webWorkerIteration s env).claimed = some jid →
      (((webWorkerIteration s env).checkA = some Status.cancelled
          ∨ (webWorkerIteration s env).checkB = some Status.cancelled
          ∨ (webWorkerIteration s env).checkC = some Status.cancelled) →
        (webWorkerIteration s env).completeCalled = false
        ∧ (webWorkerIteration s env).failCalled = false
        ∧ (get_job (webWorkerIteration s env).store jid).map Job.status
            = some Status.cancelled)
      ∧ (((webWorkerIteration s env).checkA = some Status.cancelled
          ∨ (webWorkerIteration s env).checkB = some Status.cancelled) →
        (webWorkerIteration s env).saveCalled = false))
    ∧ ((apiWorkerIteration s env).claimed = some jid →
      (((apiWorkerIteration s env).checkA = some Status.cancelled
          ∨ (apiWorkerIteration s env).checkB = some Status.cancelled
          ∨ (apiWorkerIteration s env).checkC = some Status.cancelled) →
        (apiWorkerIteration s env).completeCalled = false
        ∧ (apiWorkerIteration s env).failCalled = false
        ∧ (get_job (apiWorkerIteration s env).store jid).map Job.status
            = some Status.cancelled)
      ∧ (((apiWorkerIteration s env).checkA = some Status.cancelled
          ∨ (apiWorkerIteration s env).checkB = some Status.cancelled) →
        (apiWorkerIteration s env).saveCalled = false)) := by
  constructor
  · -- web loop
    unfold webWorkerIteration
    by_cases hpause : is_queue_paused s
    · rw [if_pos hpause]
      intro hclaim
      exact absurd hclaim (by simp)
    · rw [if_neg hpause]
      cases hsel : selectOldestQueued s.jobs with
      | none =>
        have hpop : pop_next_job s env.nowPop = (none, s) := by
          unfold pop_next_job
          rw [hsel]
        rw [hpop]
        intro hclaim
        exact absurd hclaim (by simp)
      | some j =>
        have hpop : pop_next_job s env.nowPop = (some j,
            { s with jobs := s.jobs.map (fun r =>
              if r.id == j.id then
                { r with status := Status.running, startedAt := some env.nowPop }
              else r) }) := by
          unfold pop_next_job
          rw [hsel]
        rw [hpop]
        dsimp only
        set s1 : Store := { s with jobs := s.jobs.map (fun r =>
            if r.id == j.id then
              { r with status := Status.running, startedAt := some env.nowPop }
            else r) } with hs1
        by_cases hparse : env.parseOk = false
        · rw [if_pos hparse]
          intro _
          refine ⟨?_, fun _ => rfl⟩
          rintro (h | h | h) <;> exact absurd h (by simp)
        · rw [if_neg hparse]
          set sA : Store := env.iA s1 with hsA
          by_cases hA : (get_job sA j.id).map Job.status = some Status.cancelled
          · rw [if_pos hA]
            intro hclaim
            have hjid : j.id = jid := by simpa using hclaim
            refine ⟨fun _ => ⟨rfl, rfl, ?_⟩, fun _ => rfl⟩
            rw [← hjid]
            exact hA
          · rw [if_neg hA]
            set sB : Store := env.iB sA with hsB
            by_cases hgen : env.genRaises = true
            · rw [if_pos hgen]
              intro _
              refine ⟨?_, fun _ => ?_⟩
              · rintro (h | h | h)
                · exact absurd h hA
                · exact absurd h (by simp)
                · exact absurd h (by simp)
              · rfl
            · rw [if_neg hgen]
              by_cases hB : (get_job sB j.id).map Job.status = some Status.cancelled
              · rw [if_pos hB]
                intro hclaim
                have hjid : j.id = jid := by simpa using hclaim
                refine ⟨fun _ => ⟨rfl, rfl, ?_⟩, fun _ => rfl⟩
                rw [← hjid]
                exact hB
              · rw [if_neg hB]
                by_cases himg : imagesTruthy env.images = true
                · rw [if_pos himg]
                  set sC : Store := env.iC sB with hsC
                  by_cases hsv : env.saveRaises = true
                  · rw [if_pos hsv]
                    intro _
                    refine ⟨?_, ?_⟩
                    · rintro (h | h | h)
                      · exact absurd h hA
                      · exact absurd h hB
                      · exact absurd h (by simp)
                    · rintro (h | h)
                      · exact absurd h hA
                      · exact absurd h hB
                  · rw [if_neg hsv]
                    by_cases hC : (get_job sC j.id).map Job.status = some Status.cancelled
                    · rw [if_pos hC]
                      intro hclaim
                      have hjid : j.id = jid := by simpa using hclaim
                      refine ⟨fun _ => ⟨rfl, rfl, ?_⟩, ?_⟩
                      · rw [← hjid]
                        exact hC
                      · rintro (h | h)
                        · exact absurd h hA
                        · exact absurd h hB
                    · rw [if_neg hC]
                      intro _
                      refine ⟨?_, ?_⟩
                      · rintro (h | h | h)
                        · exact absurd h hA
                        · exact absurd h hB
                        · exact absurd h hC
                      · rintro (h | h)
                        · exact absurd h hA
                        · exact absurd h hB
                · rw [if_neg himg]
                  intro _
                  refine ⟨?_, fun _ => rfl⟩
                  rintro (h | h | h)
                  · exact absurd h hA
                  · exact absurd h hB
                  · exact absurd h (by simp)
  · -- api loop
    unfold apiWorkerIteration
    cases hsel : selectOldestQueued s.jobs with
    | none =>
      have hpop : pop_next_job s env.nowPop = (none, s) := by
        unfold pop_next_job
        rw [hsel]
      rw [hpop]
      intro hclaim
      exact absurd hclaim (by simp)
    | some j =>
      have hpop : pop_next_job s env.nowPop = (some j,
          { s with jobs := s.jobs.map (fun r =>
            if r.id == j.id then
              { r with status := Status.running, startedAt := some env.nowPop }
            else r) }) := by
        unfold pop_next_job
        rw [hsel]
      rw [hpop]
      dsimp only
      set s1 : Store := { s with jobs := s.jobs.map (fun r =>
          if r.id == j.id then
            { r with status := Status.running, startedAt := some env.nowPop }
          else r) } with hs1
      set s2 : Store := update_job_progress s1 j.id "validating" with hs2
      by_cases hparse : env.parseOk = false
      · rw [if_pos hparse]
        intro _
        refine ⟨?_, fun _ => rfl⟩
        rintro (h | h | h) <;> exact absurd h (by simp)
      · rw [if_neg hparse]
        set sA : Store := env.iA s2 with hsA
        by_cases hA : (get_job sA j.id).map Job.status = some Status.cancelled
        · rw [if_pos hA]
          intro hclaim
          have hjid : j.id = jid := by simpa using hclaim
          refine ⟨fun _ => ⟨rfl, rfl, ?_⟩, fun _ => rfl⟩
          rw [← hjid]
          exact hA
        · rw [if_neg hA]
          set s4 : Store := update_job_progress
            (update_job_progress sA j.id "loading_model") j.id "generating" with hs4
          set sB : Store := env.iB s4 with hsB
          by_cases hgen : env.genRaises = true
          · rw [if_pos hgen]
            intro _
            refine ⟨?_, fun _ => ?_⟩
            · rintro (h | h | h)
              · exact absurd h hA
              · exact absurd h (by simp)
              · exact absurd h (by simp)
            · rfl
          · rw [if_neg hgen]
            by_cases himg : env.images = none
            · rw [if_pos himg]
              intro _
              refine ⟨?_, fun _ => rfl⟩
              rintro (h | h | h)
              · exact absurd h hA
              · exact absurd h (by simp)
              · exact absurd h (by simp)
            · rw [if_neg himg]
              by_cases hB : (get_job sB j.id).map Job.status = some Status.cancelled
              · rw [if_pos hB]
                intro hclaim
                have hjid : j.id = jid := by simpa using hclaim
                refine ⟨fun _ => ⟨rfl, rfl, ?_⟩, fun _ => rfl⟩
                rw [← hjid]
                exact hB
              · rw [if_neg hB]
                set s5 : Store := update_job_progress sB j.id "saving" with hs5
                set sC : Store := env.iC s5 with hsC
                by_cases hsv : env.saveRaises = true
                · rw [if_pos hsv]
                  intro _
                  refine ⟨?_, ?_⟩
                  · rintro (h | h | h)
                    · exact absurd h hA
                    · exact absurd h hB
                    · exact absurd h (by simp)
                  · rintro (h | h)
                    · exact absurd h hA
                    · exact absurd h hB
                · rw [if_neg hsv]
                  by_cases hC : (get_job sC j.id).map Job.status = some Status.cancelled
                  · rw [if_pos hC]
                    intro hclaim
                    have hjid : j.id = jid := by simpa using hclaim
                    refine ⟨fun _ => ⟨rfl, rfl, ?_⟩, ?_⟩
                    · rw [← hjid]
                      exact hC
                    · rintro (h | h)
                      · exact absurd h hA
                      · exact absurd h hB
                  · rw [if_neg hC]
                    intro _
                    refine ⟨?_, ?_⟩
                    · rintro (h | h | h)
                      · exact absurd h hA
                      · exact absurd h hB
                      · exact absurd h hC
                    · rintro (h | h)
                      · exact absurd h hA
                      · exact absurd h hB


/-- The external cancellation path the worker guards against: some other
thread marks the claimed job cancelled while the worker is busy (the
spec leaves the exact origin open — `cancel_job` itself only cancels
queued rows — so the override is modelled as a direct status write). -/
def forceCancel (jobId : Nat) (s : Store) : Store :=
  { s with jobs := s.jobs.map (fun r =>
      if r.id == jobId then { r with status := Status.cancelled } else r) }

/-- Environment in which job 2 is cancelled concurrently while the
inference call is running (between checkpoints A and B). -/
def cancelDuringGenEnv : IterEnv :=
  { plainEnv with iB := forceCancel 2 }

/-- C6 witness: with job 2 cancelled during generation, checkpoint B of
either loop reads cancelled and the iteration finalizes nothing: no
complete, no fail, no save, and job 2 still reads cancelled. -/
theorem checkpoint_cancel_spec_witness :
    (webWorkerIteration exclusiveExampleStore cancelDuringGenEnv).claimed = some 2
    ∧ (webWorkerIteration exclusiveExampleStore cancelDuringGenEnv).checkB
        = some Status.cancelled
    ∧ (webWorkerIteration exclusiveExampleStore cancelDuringGenEnv).completeCalled = false
    ∧ (webWorkerIteration exclusiveExampleStore cancelDuringGenEnv).failCalled = false
    ∧ (webWorkerIteration exclusiveExampleStore cancelDuringGenEnv).saveCalled = false
    ∧ (get_job (webWorkerIteration exclusiveExampleStore cancelDuringGenEnv).store 2).map
        Job.status = some Status.cancelled
    ∧ (apiWorkerIteration exclusiveExampleStore cancelDuringGenEnv).checkB
        = some Status.cancelled
    ∧ (apiWorkerIteration exclusiveExampleStore cancelDuringGenEnv).completeCalled
        = false := by
  have h := checkpoint_cancel_spec exclusiveExampleStore cancelDuringGenEnv 2
  have hweb := h.1 rfl
  have hapi := h.2 rfl
  exact ⟨rfl, rfl, (hweb.1 (Or.inr (Or.inl rfl))).1, (hweb.1 (Or.inr (Or.inl rfl))).2.1,
    hweb.2 (Or.inr rfl), (hweb.1 (Or.inr (Or.inl rfl))).2.2,
    rfl, (hapi.1 (Or.inr (Or.inl rfl))).1⟩

end FastSDQueue
